import Mathlib

/-!
Shallow embedding of `src/csv_to_json/cirius.py` (the `cirius` conversion
routine and its helper `append_to_obj`), together with theorems settling the
frozen claims about the program.

Modelling conventions:
* A CSV cell as produced by Python's `csv.DictReader` is either a string or
  `None`; we model it as `Option String` (`none` = Python `None`).
* A row (Python dict from column name to cell) is an ordered association list
  `List (String × Option String)`; Python dicts preserve insertion order and
  have unique keys, and our lookup takes the first match.
* The nested objects the script builds hold either scalar cells or lists of
  nested objects (the appended `filListe` / `cdwListe` / `dokumentListe` /
  `notatListe` fields), modelled by the nested inductive `Val`.
* Python exceptions (`KeyError`, `IndexError`, `AttributeError`, `TypeError`,
  and the explicit `Exception` for missing input files) are modelled with
  `Except Err`; an exception aborts the whole run, and the output file is
  written only from a successful (`.ok`) result.
* The diagnostic printed by `append_to_obj` on an unresolved key is determined
  by the unresolved key and the orphaned child object; we record it as the
  pair `(key, child)` in a diagnostics log threaded through the run.
-/

/-- A CSV cell: a string, or `none` for Python's `None`. -/
abbrev Cell := Option String

/-- A raw CSV row: ordered mapping from column name to cell value. -/
abbrev Row := List (String × Cell)

/-- A Python value stored in the objects the script builds: either a scalar
cell or a list of nested objects. -/
inductive Val where
  | s (v : Cell)
  | arr (objs : List (List (String × Val)))

/-- An object built by the script: an ordered mapping from field name to
value (a Python dict). -/
abbrev Obj := List (String × Val)

/-- Embed a raw CSV row as an object (used where the Python code stores a row
dict unchanged, e.g. file rows and note rows). -/
def embedRow (r : Row) : Obj := r.map (fun kv => (kv.1, Val.s kv.2))

/-- First-match association lookup; models Python dict lookup (dict keys are
unique, so first match is the match). -/
def alookup {κ α : Type} [DecidableEq κ] : List (κ × α) → κ → Option α
  | [], _ => none
  | kv :: rest, k => if kv.1 = k then some kv.2 else alookup rest k

/-- Python dict assignment `d[k] = v`: overwrite in place if the key is
present, otherwise append the new entry at the end. -/
def ainsert {κ α : Type} [DecidableEq κ] : List (κ × α) → κ → α → List (κ × α)
  | [], k, v => [(k, v)]
  | kv :: rest, k, v =>
    if kv.1 = k then (kv.1, v) :: rest else kv :: ainsert rest k v

/-- Python `if k not in d: d[k] = []` followed by `d[k].append(v)`: append
`v` to the group at key `k`, creating the group lazily (source lines 66-70). -/
def gadd {κ : Type} [DecidableEq κ] : List (κ × List Obj) → κ → Obj → List (κ × List Obj)
  | [], k, v => [(k, [v])]
  | kv :: rest, k, v =>
    if kv.1 = k then (kv.1, kv.2 ++ [v]) :: rest else kv :: gadd rest k v

/-- The exceptions the script can raise. -/
inductive Err where
  /-- the explicit `Exception` raised when a required input file is missing
  (source lines 29-37) -/
  | missingFiles
  /-- `KeyError` from looking up a missing field name in a row or object -/
  | keyError (field : String)
  /-- `KeyError` from `dict_mapping[...]` on an unrecognized owner-kind value
  (source line 65) -/
  | keyErrorKind (kind : Cell)
  /-- `TypeError` from using an unhashable value (a list) as a dict key -/
  | typeError
  /-- `AttributeError` from calling `.append` on a non-list field value -/
  | attrError
  /-- `IndexError` from indexing a list out of range -/
  | indexError (i : Nat)
deriving DecidableEq

/-- Row field access `row["k"]` (raises `KeyError` when the column is absent). -/
def getField (r : Row) (k : String) : Except Err Cell :=
  match alookup r k with
  | some v => .ok v
  | none => .error (.keyError k)

/-- Object field access `obj["k"]` (raises `KeyError` when absent). -/
def objGet (o : Obj) (k : String) : Except Err Val :=
  match alookup o k with
  | some v => .ok v
  | none => .error (.keyError k)

/-- Python dict assignment `obj[k] = v` on an object: replace in place when
the key exists, keeping its position, otherwise append at the end. -/
def replaceField : Obj → String → Val → Obj
  | [], _, _ => []
  | kv :: rest, k, v =>
    if kv.1 = k then (kv.1, v) :: rest else kv :: replaceField rest k v

/-- Python dict assignment `obj[k] = v`: overwrite or append. -/
def setField (o : Obj) (k : String) (v : Val) : Obj :=
  match alookup o k with
  | some _ => replaceField o k v
  | none => o ++ [(k, v)]

/-- A diagnostic printed by `append_to_obj` on an unresolved key: the Python
message `f"ERROR: following object was not found using index {index_key}:
\n{child_obj}"` is determined by the pair (unresolved key, orphaned child). -/
abbrev Diag := Cell × Obj

/-- Grouped file index: one of the three dicts `dokumentFiles`, `cdwFiles`,
`notatFiles` mapping an owner id to the list of its file rows. -/
abbrev GrpIdx := List (Cell × List Obj)

/-- Index map from a key value to a position in a list (the dicts
`index_mapping_sager` / `index_mapping_dokumenter`). -/
abbrev IdxMap := List (Cell × Nat)

/-- The helper `append_to_obj` (source lines 195-217): append a child object
to the named child list of the parent located through the index map.  An
absent key prints a diagnostic and returns without mutation; a present key
locates the parent (`IndexError` if the stored index is out of range),
creates the child-list field if absent, and appends (`.append` on a non-list
existing value raises `AttributeError`). -/
def append_to_obj (parent_objects : List Obj) (parent_index_map : IdxMap)
    (index_key : Cell) (child_obj_type : String) (child_obj : Obj) :
    Except Err (List Obj × List Diag) :=
  match alookup parent_index_map index_key with
  | none => .ok (parent_objects, [(index_key, child_obj)])
  | some i =>
    match parent_objects[i]? with
    | none => .error (.indexError i)
    | some corresponding_obj =>
      match alookup corresponding_obj child_obj_type with
      | none =>
        .ok (parent_objects.set i
          (corresponding_obj ++ [(child_obj_type, Val.arr [child_obj])]), [])
      | some (.arr l) =>
        .ok (parent_objects.set i
          (replaceField corresponding_obj child_obj_type (Val.arr (l ++ [child_obj]))), [])
      | some (.s _) => .error .attrError

/-- Processing of one row of `fil.csv` (source lines 61-70): dispatch on the
`notes_template_name` discriminator through `dict_mapping` (an unrecognized
value, including `None`, raises `KeyError`), then group the row under its
`notes_template_id`. -/
def filStep (acc : GrpIdx × GrpIdx × GrpIdx) (fil : Row) :
    Except Err (GrpIdx × GrpIdx × GrpIdx) := do
  let tname ← getField fil "notes_template_name"
  match tname with
  | some "dokument" => do
    let tid ← getField fil "notes_template_id"
    pure (gadd acc.1 tid (embedRow fil), acc.2.1, acc.2.2)
  | some "cdw" => do
    let tid ← getField fil "notes_template_id"
    pure (acc.1, gadd acc.2.1 tid (embedRow fil), acc.2.2)
  | some "notat" => do
    let tid ← getField fil "notes_template_id"
    pure (acc.1, acc.2.1, gadd acc.2.2 tid (embedRow fil))
  | _ => .error (.keyErrorKind tname)

/-- The loop over `fil.csv` building the three file indexes
(`dokumentFiles`, `cdwFiles`, `notatFiles`). -/
def buildFileIdx : List Row → GrpIdx × GrpIdx × GrpIdx →
    Except Err (GrpIdx × GrpIdx × GrpIdx)
  | [], acc => .ok acc
  | r :: rs, acc => do buildFileIdx rs (← filStep acc r)

/-- The loop over `sag.csv` (source lines 79-83): append each case row to
`sager` and record `index_mapping_sager[sag["SagsNr"]] = len(sager) - 1`. -/
def buildSager : List Row → List Obj → IdxMap → Except Err (List Obj × IdxMap)
  | [], sager, m => .ok (sager, m)
  | r :: rs, sager, m =>
    let sager' := sager ++ [embedRow r]
    match getField r "SagsNr" with
    | .error e => .error e
    | .ok key => buildSager rs sager' (ainsert m key (sager'.length - 1))

/-- The list of attachment field names `cdw_keys` (source lines 113-124). -/
def cdw_keys : List String :=
  ["cdw_id", "cdwDocumentUniqueID", "cdwCreatedDate", "From1", "PostedDate",
   "SendTo", "CopyTo", "BlindCopyTo", "Subject", "cdwBody"]

/-- One iteration of the field-partition loop (source lines 127-133): null
values are normalized to the empty string, then the field goes to the `cdw`
object when its name is in `cdw_keys` and to the `dokument` object otherwise. -/
def splitStep (acc : Obj × Obj) (kv : String × Cell) : Obj × Obj :=
  let value := kv.2.getD ""
  if kv.1 ∈ cdw_keys then (acc.1, acc.2 ++ [(kv.1, Val.s (some value))])
  else (acc.1 ++ [(kv.1, Val.s (some value))], acc.2)

/-- Split one `dokumentcdw.csv` row into its `dokument` and `cdw` parts
(source lines 109-133). -/
def splitDokumentcdw (row : Row) : Obj × Obj :=
  row.foldl splitStep ([], [])

/-- Source line 139: `dokument["dokument_id"] not in dokumenter` (here the
un-negated membership).  Python list membership compares with `==`; the left
operand is the scalar value of the `dokument_id` field while every element of
`dokumenter` is a dict, and in Python `str == dict` and `None == dict` are
`False`, so the test is `False` for every element. -/
def pyValInObjList (_v : Val) (dokumenter : List Obj) : Bool :=
  dokumenter.any (fun _ => false)

/-- Use a Python value as a dict key: scalar cells are hashable; a list
raises `TypeError: unhashable type`. -/
def valToKey : Val → Except Err Cell
  | .s v => .ok v
  | .arr _ => .error .typeError

/-- Python `cdw["cdw_id"] != ""` (source line 158): a string is compared for
inequality with `""`; `None` and lists are unequal to `""` as well. -/
def valNeEmptyStr : Val → Bool
  | .s v => decide (v ≠ some "")
  | .arr _ => true

/-- One iteration of the `dokumentcdw.csv` loop (source lines 107-164), over
the state (`dokumenter`, `index_mapping_dokumenter`, diagnostics log). -/
def dokStep (dFiles cFiles : GrpIdx) (st : List Obj × IdxMap × List Diag)
    (row : Row) : Except Err (List Obj × IdxMap × List Diag) := do
  let dokument := (splitDokumentcdw row).1
  let cdw := (splitDokumentcdw row).2
  let dokIdV ← objGet dokument "dokument_id"
  let st1 ←
    if pyValInObjList dokIdV st.1 then
      pure st
    else do
      let dokKey ← valToKey dokIdV
      let dokument1 :=
        match alookup dFiles dokKey with
        | some files => setField dokument "filListe" (Val.arr files)
        | none => dokument
      let dokumenter1 := st.1 ++ [dokument1]
      pure (dokumenter1, ainsert st.2.1 dokKey (dokumenter1.length - 1), st.2.2)
  let cdwIdV ← objGet cdw "cdw_id"
  if valNeEmptyStr cdwIdV then do
    let cdwKey ← valToKey cdwIdV
    let cdw1 :=
      match alookup cFiles cdwKey with
      | some files => setField cdw "filListe" (Val.arr files)
      | none => cdw
    let rawDokId ← getField row "dokument_id"
    let r ← append_to_obj st1.1 st1.2.1 rawDokId "cdwListe" cdw1
    pure (r.1, st1.2.1, st1.2.2 ++ r.2)
  else
    pure st1

/-- The loop over `dokumentcdw.csv`. -/
def processDokumentcdw (dFiles cFiles : GrpIdx) :
    List Row → List Obj × IdxMap × List Diag →
    Except Err (List Obj × IdxMap × List Diag)
  | [], st => .ok st
  | r :: rs, st => do processDokumentcdw dFiles cFiles rs (← dokStep dFiles cFiles st r)

/-- One iteration of the loop attaching documents to cases
(source lines 167-169), through `append_to_sag`. -/
def dokToSagStep (smap : IdxMap) (st : List Obj × List Diag) (dokument : Obj) :
    Except Err (List Obj × List Diag) := do
  let sagsnrV ← objGet dokument "SagsNr"
  let key ← valToKey sagsnrV
  let r ← append_to_obj st.1 smap key "dokumentListe" dokument
  pure (r.1, st.2 ++ r.2)

/-- The loop attaching every document to its owning case. -/
def attachDokumenter (smap : IdxMap) :
    List Obj → List Obj × List Diag → Except Err (List Obj × List Diag)
  | [], st => .ok st
  | d :: ds, st => do attachDokumenter smap ds (← dokToSagStep smap st d)

/-- One iteration of the `notat.csv` loop (source lines 173-183): attach the
note's file list when present, then attach the note to its owning case. -/
def notatStep (nFiles : GrpIdx) (smap : IdxMap) (st : List Obj × List Diag)
    (notat : Row) : Except Err (List Obj × List Diag) := do
  let nid ← getField notat "notat_id"
  let notatObj :=
    match alookup nFiles nid with
    | some files => setField (embedRow notat) "filListe" (Val.arr files)
    | none => embedRow notat
  let sagsnr ← getField notat "SagsNr"
  let r ← append_to_obj st.1 smap sagsnr "notatListe" notatObj
  pure (r.1, st.2 ++ r.2)

/-- The loop over `notat.csv`. -/
def processNotater (nFiles : GrpIdx) (smap : IdxMap) :
    List Row → List Obj × List Diag → Except Err (List Obj × List Diag)
  | [], st => .ok st
  | r :: rs, st => do processNotater nFiles smap rs (← notatStep nFiles smap st r)

/-- The whole run (`cirius`, source lines 17-189).  The four booleans model
the existence checks on the four required input files; the row lists model
the parsed contents of `fil.csv`, `sag.csv`, `dokumentcdw.csv`, `notat.csv`.
The result is the list of case objects serialized to `cirius.json`, together
with the chronological diagnostics log; an `.error` result models an
exception aborting the run before anything is written. -/
def cirius (hasFil hasSag hasDokumentcdw hasNotat : Bool)
    (filRows sagRows dokRows notatRows : List Row) :
    Except Err (List Obj × List Diag) := do
  if !(hasFil && hasSag && hasDokumentcdw && hasNotat) then
    .error .missingFiles
  else do
    let idxs ← buildFileIdx filRows ([], [], [])
    let sm ← buildSager sagRows [] []
    let dst ← processDokumentcdw idxs.1 idxs.2.1 dokRows ([], [], [])
    let sd ← attachDokumenter sm.2 dst.1 (sm.1, [])
    let se ← processNotater idxs.2.2 sm.2 notatRows (sd.1, [])
    pure (se.1, dst.2.2 ++ sd.2 ++ se.2)

/-- The content written to `cirius.json`: present exactly when the run
completed without an exception (the file is opened and written only at the
very end of `cirius`, source lines 187-189). -/
def writtenOutput (r : Except Err (List Obj × List Diag)) : Option (List Obj) :=
  match r with
  | .ok st => some st.1
  | .error _ => none

/-! ### Derived notions used to state the claims -/

/-- The three owner-kind discriminator values recognized by `dict_mapping`
(source lines 51-55). -/
def recognizedKinds : List String := ["dokument", "cdw", "notat"]

/-- The list of objects stored under field `f` of an object (empty when the
field is absent or scalar). -/
def fieldObjs (f : String) (o : Obj) : List Obj :=
  match alookup o f with
  | some (.arr l) => l
  | _ => []

/-- The document objects nested under one case object. -/
def sagDokumente (sag : Obj) : List Obj := fieldObjs "dokumentListe" sag

/-- The note objects nested under one case object. -/
def sagNotater (sag : Obj) : List Obj := fieldObjs "notatListe" sag

/-- The attachment objects nested under one document object. -/
def docCdws (doc : Obj) : List Obj := fieldObjs "cdwListe" doc

/-- All document objects appearing in the output. -/
def docsOf (out : List Obj) : List Obj :=
  out.foldr (fun sag acc => sagDokumente sag ++ acc) []

/-- All attachment objects appearing in the output. -/
def cdwsOf (out : List Obj) : List Obj :=
  (docsOf out).foldr (fun doc acc => docCdws doc ++ acc) []

/-- All note objects appearing in the output. -/
def notesOf (out : List Obj) : List Obj :=
  out.foldr (fun sag acc => sagNotater sag ++ acc) []

/-- Whether a `fil.csv` row belongs to owner kind `kind` and owner id `k`. -/
def matchesFil (kind : String) (k : Cell) (r : Row) : Bool :=
  decide (alookup r "notes_template_name" = some (some kind)) &&
  decide (alookup r "notes_template_id" = some k)

/-- The file rows matching owner `(kind, k)`, in source order, as stored. -/
def filesFor (kind : String) (k : Cell) (rows : List Row) : List Obj :=
  (rows.filter (matchesFil kind k)).map embedRow

/-- The expected value of an owner's `filListe` field: absent when no file
row matches, and exactly the matching rows in source order otherwise. -/
def expectedFiles (kind : String) (k : Cell) (rows : List Row) : Option Val :=
  match filesFor kind k rows with
  | [] => none
  | l => some (Val.arr l)

/-- Position of the last row of `rows` (counting from `pos`) whose `SagsNr`
field is exactly `k`. -/
def lastSagIdxFrom : List Row → Nat → Cell → Option Nat
  | [], _, _ => none
  | r :: rs, pos, k =>
    match lastSagIdxFrom rs (pos + 1) k with
    | some i => some i
    | none => if alookup r "SagsNr" = some k then some pos else none

/-- Position of the last occurrence of case key `k` in the case table. -/
def lastSagIdx (rows : List Row) (k : Cell) : Option Nat :=
  lastSagIdxFrom rows 0 k

/-- The normalized `dokument_id` of a combined row (null becomes `""`). -/
def dokIdN (r : Row) : String := ((alookup r "dokument_id").getD none).getD ""

/-- The normalized `cdw_id` of a combined row (null becomes `""`). -/
def cdwIdN (r : Row) : String := ((alookup r "cdw_id").getD none).getD ""

/-- The raw (un-normalized) `dokument_id` cell of a combined row, as used by
the call `append_to_dokument(dokumentcdw["dokument_id"], cdw)` on line 164. -/
def rawDokId (r : Row) : Cell := (alookup r "dokument_id").getD none

/-- The attachment object built from one combined row: the `cdw` part of the
split, with its file list attached when the `cdw` file index has its id. -/
def cdwRecord (cFiles : GrpIdx) (r : Row) : Obj :=
  match alookup cFiles (some (cdwIdN r)) with
  | some files => setField (splitDokumentcdw r).2 "filListe" (Val.arr files)
  | none => (splitDokumentcdw r).2

/-- The `dokument` part of a combined row with its file list attached when
the document file index has its id. -/
def docBase (dFiles : GrpIdx) (r : Row) : Obj :=
  match alookup dFiles (some (dokIdN r)) with
  | some files => setField (splitDokumentcdw r).1 "filListe" (Val.arr files)
  | none => (splitDokumentcdw r).1

/-- The document object built from one combined row: the `dokument` part of
the split, with its file list attached when the document file index has its
id, and with its attachment appended when the row's attachment id is
non-empty and its raw document id is a string (a `None` document id makes
the attachment an orphan instead). -/
def docRecord (dFiles cFiles : GrpIdx) (r : Row) : Obj :=
  if cdwIdN r ≠ "" ∧ (rawDokId r).isSome then
    docBase dFiles r ++ [("cdwListe", Val.arr [cdwRecord cFiles r])]
  else docBase dFiles r

/-- The diagnostics emitted while processing one combined row: exactly one
orphan diagnostic when the attachment id is non-empty but the raw document
id is `None` (so the index lookup cannot resolve it). -/
def dokDiag1 (cFiles : GrpIdx) (r : Row) : List Diag :=
  if cdwIdN r ≠ "" ∧ rawDokId r = none then [(none, cdwRecord cFiles r)] else []

/-- The diagnostics emitted by the whole `dokumentcdw.csv` pass. -/
def dokDiags (cFiles : GrpIdx) : List Row → List Diag
  | [] => []
  | r :: rs => dokDiag1 cFiles r ++ dokDiags cFiles rs

/-- The note object built from one `notat.csv` row: the embedded row with
its file list attached when the note file index has its (raw) note id. -/
def noteRecord (nFiles : GrpIdx) (r : Row) : Obj :=
  match alookup nFiles ((alookup r "notat_id").getD none) with
  | some files => setField (embedRow r) "filListe" (Val.arr files)
  | none => embedRow r

/-- Claim C2 is about this concrete case table: two rows with the same
`SagsNr` value `"1"`. -/
def c2Rows : List Row :=
  [[("SagsNr", some "1"), ("a", some "x")], [("SagsNr", some "1"), ("a", some "y")]]

/-! ### Claim C1: duplicate document rows are *not* collapsed -/

/-- The case row for the C1 scenario. -/
def c1Sag : Row := [("SagsNr", some "s1")]

/-- A combined document/attachment row of the C1 scenario: document id `"d"`
with attachment id `cid`. -/
def c1Dok (cid : String) : Row :=
  [("dokument_id", some "d"), ("SagsNr", some "s1"), ("cdw_id", some cid)]

/-- The document object the run builds from `c1Dok cid`. -/
def c1DocOut (cid : String) : Obj :=
  [("dokument_id", Val.s (some "d")), ("SagsNr", Val.s (some "s1")),
   ("cdwListe", Val.arr [[("cdw_id", Val.s (some cid))]])]

/-- The single case object of the C1 scenario's output. -/
def c1Out : Obj :=
  [("SagsNr", Val.s (some "s1")),
   ("dokumentListe", Val.arr [c1DocOut "a1", c1DocOut "a2"])]

/-- Concrete parents list used to witness the `append_to_obj` theorems. -/
def w3Parents : List Obj :=
  [[("a", Val.s (some "x"))], [("cs", Val.arr [[("q", Val.s none)]])]]

/-- Concrete index map used to witness the `append_to_obj` theorems. -/
def w3Map : IdxMap := [(some "k", 0), (some "m", 1)]

/-- Concrete child object used to witness the `append_to_obj` theorems. -/
def w3Child : Obj := [("c", Val.s (some "y"))]

/-! ### Claim C4: the field partition of a combined row -/

/-- The document-side fields of a combined row: every non-`cdw_keys` field,
null-normalized, in row order. -/
def docFields (row : Row) : Obj :=
  row.filterMap (fun kv =>
    if kv.1 ∈ cdw_keys then none else some (kv.1, Val.s (some (kv.2.getD ""))))

/-- The attachment-side fields of a combined row: every `cdw_keys` field,
null-normalized, in row order. -/
def cdwFields (row : Row) : Obj :=
  row.filterMap (fun kv =>
    if kv.1 ∈ cdw_keys then some (kv.1, Val.s (some (kv.2.getD ""))) else none)

/-- Concrete combined row used to witness C4: one attachment field with a
null value, one document field. -/
def c4Row : Row := [("dokument_id", some "d"), ("cdw_id", none), ("x", some "1")]

/-- Concrete bad file row used to witness C6: owner kind `"sag"` is not
recognized. -/
def c6Bad : Row := [("notes_template_name", some "sag"), ("notes_template_id", some "1")]

/-! ### Claim C8: output cases keep the source row order -/

/-- Invariant tying the evolving case list to the source case rows: same
length, and each case object still starts with exactly its source row's
fields (embedded), in order — attached child lists only ever follow them. -/
abbrev PrefixInv (sr : List Row) (sager : List Obj) : Prop :=
  sager.length = sr.length ∧
  ∀ (i : Nat) (r : Row) (o : Obj),
    sr[i]? = some r → sager[i]? = some o → o.take r.length = embedRow r

/-- Appending one group member to an optional group. -/
def optAppend (o : Option (List Obj)) (l : List Obj) : Option (List Obj) :=
  match o, l with
  | none, [] => none
  | none, l => some l
  | some l0, l => some (l0 ++ l)

/-- All objects stored under field `f` of any member of `sager` come from
the `allowed` pool. -/
def Track (f : String) (allowed : List Obj) (sager : List Obj) : Prop :=
  ∀ o ∈ sager, ∀ d ∈ fieldObjs f o, d ∈ allowed

/-- No member of `sager` has a `filListe` field. -/
def NoFil (sager : List Obj) : Prop :=
  ∀ o ∈ sager, alookup o "filListe" = none

/-- Concrete file row of the C5 witness scenario: owned by document `"d"`. -/
def c5Fil : Row :=
  [("notes_template_name", some "dokument"), ("notes_template_id", some "d"),
   ("name", some "file1")]

/-- Concrete note row of the C5 witness scenario. -/
def c5Not : Row := [("notat_id", some "n"), ("SagsNr", some "s1")]

/-- The single case object output by the C5 witness run. -/
def c5Out : Obj :=
  [("SagsNr", Val.s (some "s1")),
   ("dokumentListe", Val.arr
     [[("dokument_id", Val.s (some "d")), ("SagsNr", Val.s (some "s1")),
       ("filListe", Val.arr [embedRow c5Fil]),
       ("cdwListe", Val.arr [[("cdw_id", Val.s (some "a1"))]])]]),
   ("notatListe", Val.arr [embedRow c5Not])]

/-! ### Claim C9: an unreferenced file row is inert -/

/-- Two group indexes agree on every key outside the excluded set. -/
def GrpAgree (ex : Cell → Prop) (m m' : GrpIdx) : Prop :=
  ∀ k, ¬ ex k → alookup m k = alookup m' k

/-- Componentwise agreement of the three file indexes, with one excluded-key
set per owner kind. -/
def IdxsRel (exD exC exN : Cell → Prop)
    (a b : GrpIdx × GrpIdx × GrpIdx) : Prop :=
  GrpAgree exD a.1 b.1 ∧ GrpAgree exC a.2.1 b.2.1 ∧ GrpAgree exN a.2.2 b.2.2

/-- Lift a relation to `Except` results: equal errors, or related values. -/
def ExceptRel {α : Type} (R : α → α → Prop) :
    Except Err α → Except Err α → Prop
  | .error e, .error e' => e = e'
  | .ok a, .ok a' => R a a'
  | _, _ => False

/-- The part of `cirius` that follows the file-index pass, given the built
indexes (used to factor the congruence argument of C9). -/
def ciriusTail (idxs : GrpIdx × GrpIdx × GrpIdx) (sr dr nr : List Row) :
    Except Err (List Obj × List Diag) := do
  let sm ← buildSager sr [] []
  let dst ← processDokumentcdw idxs.1 idxs.2.1 dr ([], [], [])
  let sd ← attachDokumenter sm.2 dst.1 (sm.1, [])
  let se ← processNotater idxs.2.2 sm.2 nr (sd.1, [])
  pure (se.1, dst.2.2 ++ sd.2 ++ se.2)

/-- Concrete unreferenced file row for the C9 witness: owner kind
`dokument`, owner id `"zz"`, which no document row carries. -/
def c9Fil : Row :=
  [("notes_template_name", some "dokument"), ("notes_template_id", some "zz")]

/-! ### Basic lemmas about the association-list operations -/

theorem alookup_ainsert {κ α : Type} [DecidableEq κ] (l : List (κ × α))
    (k k' : κ) (v : α) :
    alookup (ainsert l k v) k' = if k' = k then some v else alookup l k' := by
  induction l with
  | nil =>
    by_cases h : k' = k
    · subst h; simp [ainsert, alookup]
    · simp [ainsert, alookup, h, Ne.symm h]
  | cons kv rest ih =>
    by_cases h : kv.1 = k
    · subst h
      by_cases h1 : k' = kv.1
      · subst h1; simp [ainsert, alookup]
      · simp [ainsert, alookup, h1, Ne.symm h1]
    · by_cases h1 : kv.1 = k'
      · subst h1
        simp [ainsert, alookup, h, fun hh : kv.1 = k => h hh]
      · simp [ainsert, alookup, h, h1, ih]

theorem alookup_gadd {κ : Type} [DecidableEq κ] (l : List (κ × List Obj))
    (k k' : κ) (v : Obj) :
    alookup (gadd l k v) k' =
      if k' = k then some ((alookup l k).getD [] ++ [v]) else alookup l k' := by
  induction l with
  | nil =>
    by_cases h : k' = k
    · subst h; simp [gadd, alookup]
    · simp [gadd, alookup, h, Ne.symm h]
  | cons kv rest ih =>
    by_cases h : kv.1 = k
    · subst h
      by_cases h1 : k' = kv.1
      · subst h1; simp [gadd, alookup]
      · simp [gadd, alookup, h1, Ne.symm h1]
    · by_cases h1 : kv.1 = k'
      · subst h1
        simp [gadd, alookup, h, fun hh : kv.1 = k => h hh]
      · simp [gadd, alookup, h, h1, ih]

theorem alookup_append {κ α : Type} [DecidableEq κ] (l1 l2 : List (κ × α)) (k : κ) :
    alookup (l1 ++ l2) k =
      match alookup l1 k with
      | some v => some v
      | none => alookup l2 k := by
  induction l1 with
  | nil => simp [alookup]
  | cons kv rest ih =>
    simp only [List.cons_append, alookup]
    split_ifs with h <;> simp [h, ih]

theorem alookup_embedRow (r : Row) (k : String) :
    alookup (embedRow r) k = (alookup r k).map Val.s := by
  induction r with
  | nil => simp [embedRow, alookup]
  | cons kv rest ih =>
    simp only [embedRow, List.map_cons, alookup]
    split_ifs with h <;> simp_all [embedRow]

theorem alookup_replaceField (o : Obj) (k : String) (v : Val) (k' : String)
    (h : k' ≠ k) : alookup (replaceField o k v) k' = alookup o k' := by
  induction o with
  | nil => simp [replaceField]
  | cons kv rest ih =>
    simp only [replaceField]
    split_ifs with h1
    · simp [alookup, h1, Ne.symm h, h]
    · simp only [alookup, ih]

theorem alookup_replaceField_self (o : Obj) (k : String) (v : Val)
    (h : (alookup o k).isSome) : alookup (replaceField o k v) k = some v := by
  induction o with
  | nil => simp [alookup] at h
  | cons kv rest ih =>
    simp only [replaceField]
    split_ifs with h1
    · simp [alookup, h1]
    · simp only [alookup, if_neg h1]
      apply ih
      simpa [alookup, if_neg h1] using h

theorem getField_ok_iff (r : Row) (k : String) (v : Cell) :
    getField r k = .ok v ↔ alookup r k = some v := by
  unfold getField
  cases hl : alookup r k <;> simp

theorem getField_error_iff (r : Row) (k : String) :
    getField r k = .error (.keyError k) ↔ alookup r k = none := by
  unfold getField
  cases hl : alookup r k <;> simp

/-! ### The case pass: `sager` is the source rows in order, and the index
resolves each key to its last occurrence -/

theorem buildSager_sager : ∀ (rows : List Row) (acc : List Obj) (m : IdxMap)
    (sager : List Obj) (m' : IdxMap),
    buildSager rows acc m = .ok (sager, m') → sager = acc ++ rows.map embedRow
  | [], acc, m, sager, m', h => by
    simp only [buildSager, Except.ok.injEq, Prod.mk.injEq] at h
    simp [← h.1]
  | r :: rs, acc, m, sager, m', h => by
    simp only [buildSager] at h
    cases hg : getField r "SagsNr" with
    | error e => rw [hg] at h; cases h
    | ok key =>
      rw [hg] at h
      have := buildSager_sager rs (acc ++ [embedRow r]) _ sager m' h
      simpa using this

theorem buildSager_map : ∀ (rows : List Row) (acc : List Obj) (m : IdxMap)
    (sager : List Obj) (m' : IdxMap),
    buildSager rows acc m = .ok (sager, m') →
    ∀ k, alookup m' k =
      match lastSagIdxFrom rows acc.length k with
      | some i => some i
      | none => alookup m k
  | [], acc, m, sager, m', h, k => by
    simp only [buildSager, Except.ok.injEq, Prod.mk.injEq] at h
    simp [lastSagIdxFrom, ← h.2]
  | r :: rs, acc, m, sager, m', h, k => by
    simp only [buildSager] at h
    cases hg : getField r "SagsNr" with
    | error e => rw [hg] at h; cases h
    | ok key =>
      rw [hg] at h
      have hlen : (acc ++ [embedRow r]).length - 1 = acc.length := by simp
      rw [hlen] at h
      have ih := buildSager_map rs (acc ++ [embedRow r]) _ sager m' h k
      have hsag : alookup r "SagsNr" = some key := (getField_ok_iff r _ key).mp hg
      simp only [List.length_append, List.length_cons, List.length_nil] at ih
      rw [ih, lastSagIdxFrom]
      cases hrec : lastSagIdxFrom rs (acc.length + 1) k with
      | some i => simp
      | none =>
        simp only [alookup_ainsert, hsag]
        by_cases hk : k = key
        · subst hk; simp
        · rw [if_neg hk]
          rw [if_neg (fun hh : some key = some k => hk (Option.some.inj hh).symm)]

/-- C2, counterexample: on a case table with two rows sharing `SagsNr "1"`,
the Python dict assignment `index_mapping_sager[sag["SagsNr"]] = len(sager)-1`
on source line 83 **overwrites** the earlier entry, so the index resolves key
`"1"` to position 1 (the second occurrence), not position 0 as the claim
states. -/
theorem sag_index_first_occurrence_counterexample :
    buildSager c2Rows [] [] =
      .ok ([embedRow c2Rows[0], embedRow c2Rows[1]], [((some "1" : Cell), 1)]) ∧
    alookup [((some "1" : Cell), 1)] (some "1") ≠ some 0 := by
  constructor
  · rfl
  · decide

/-- C2, amended: for every case table, the case-key-to-position index
resolves each key to the position of its **last** occurrence: a later
insertion with the same `SagsNr` overwrites the earlier mapping (Python dict
assignment, source line 83), so all subsequent child attachments for that key
go to the last occurrence's record.  The case list itself keeps every row in
source order. -/
theorem sag_index_resolves_to_last (rows : List Row) (sager : List Obj)
    (m : IdxMap) (h : buildSager rows [] [] = .ok (sager, m)) :
    sager = rows.map embedRow ∧ ∀ k, alookup m k = lastSagIdx rows k := by
  refine ⟨by simpa using buildSager_sager rows [] [] sager m h, fun k => ?_⟩
  have h2 := buildSager_map rows [] [] sager m h k
  simp only [List.length_nil] at h2
  rw [lastSagIdx]
  cases hrec : lastSagIdxFrom rows 0 k <;> simp_all [alookup]

/-- Witness for the amended C2 theorem at the concrete duplicate-key table:
the index entry for `"1"` is the last occurrence's position, 1. -/
theorem sag_index_resolves_to_last_witness :
    alookup [((some "1" : Cell), 1)] (some "1") = lastSagIdx c2Rows (some "1") ∧
    lastSagIdx c2Rows (some "1") = some 1 :=
  ⟨(sag_index_resolves_to_last c2Rows _ _ rfl).2 (some "1"), by decide⟩

/-- C1, code bug: feeding the same document id `"d"` twice with two distinct
non-empty attachment ids yields **two** document objects in the output, each
carrying one attachment — not one document object carrying both, as the claim
(and the code's own comment on source lines 135-138, and spec §8.1) state.
The dedup check on source line 139, `dokument["dokument_id"] not in
dokumenter`, tests a string against a list of dicts, which is always true in
Python, so a fresh document record is registered for every row and each
attachment lands on its own row's record. -/
theorem duplicate_dokument_rows_not_collapsed :
    cirius true true true true [] [c1Sag] [c1Dok "a1", c1Dok "a2"] []
      = .ok ([c1Out], []) ∧
    (docsOf [c1Out]).length = 2 ∧
    (docsOf [c1Out]).map (fun o => alookup o "dokument_id")
      = [some (Val.s (some "d")), some (Val.s (some "d"))] := by
  refine ⟨rfl, rfl, rfl⟩

/-! ### Claims C3 and C10: the contract and frame of `append_to_obj` -/

theorem alookup_append_single_ne (o : Obj) (k g : String) (v : Val)
    (h : g ≠ k) : alookup (o ++ [(k, v)]) g = alookup o g := by
  rw [alookup_append]
  cases alookup o g <;> simp [alookup, Ne.symm h]

theorem alookup_append_single_self (o : Obj) (k : String) (v : Val)
    (h : alookup o k = none) : alookup (o ++ [(k, v)]) k = some v := by
  rw [alookup_append, h]
  simp [alookup]

/-! ### Case equations for `append_to_obj` (shared by several proofs) -/

theorem append_to_obj_none_eq {parents : List Obj} {pmap : IdxMap} {key : Cell}
    {ctype : String} {child : Obj} (h : alookup pmap key = none) :
    append_to_obj parents pmap key ctype child = .ok (parents, [(key, child)]) := by
  simp [append_to_obj, h]

theorem append_to_obj_oob_eq {parents : List Obj} {pmap : IdxMap} {key : Cell}
    {ctype : String} {child : Obj} {i : Nat} (hi : alookup pmap key = some i)
    (hobj : parents[i]? = none) :
    append_to_obj parents pmap key ctype child = .error (.indexError i) := by
  simp [append_to_obj, hi, hobj]

theorem append_to_obj_create_eq {parents : List Obj} {pmap : IdxMap} {key : Cell}
    {ctype : String} {child : Obj} {i : Nat} {obj : Obj}
    (hi : alookup pmap key = some i) (hobj : parents[i]? = some obj)
    (hf : alookup obj ctype = none) :
    append_to_obj parents pmap key ctype child =
      .ok (parents.set i (obj ++ [(ctype, Val.arr [child])]), []) := by
  simp [append_to_obj, hi, hobj, hf]

theorem append_to_obj_append_eq {parents : List Obj} {pmap : IdxMap} {key : Cell}
    {ctype : String} {child : Obj} {i : Nat} {obj : Obj} {l : List Obj}
    (hi : alookup pmap key = some i) (hobj : parents[i]? = some obj)
    (hf : alookup obj ctype = some (Val.arr l)) :
    append_to_obj parents pmap key ctype child =
      .ok (parents.set i (replaceField obj ctype (Val.arr (l ++ [child]))), []) := by
  simp [append_to_obj, hi, hobj, hf]

theorem append_to_obj_attr_eq {parents : List Obj} {pmap : IdxMap} {key : Cell}
    {ctype : String} {child : Obj} {i : Nat} {obj : Obj} {v : Cell}
    (hi : alookup pmap key = some i) (hobj : parents[i]? = some obj)
    (hf : alookup obj ctype = some (Val.s v)) :
    append_to_obj parents pmap key ctype child = .error .attrError := by
  simp [append_to_obj, hi, hobj, hf]

/-- Exhaustive description of a successful `append_to_obj` call: either the
key was unresolved (no change, one diagnostic) or exactly one parent was
extended at its `ctype` field. -/
theorem append_to_obj_ok_cases {parents parents' : List Obj} {pmap : IdxMap}
    {key : Cell} {ctype : String} {child : Obj} {log : List Diag}
    (h : append_to_obj parents pmap key ctype child = .ok (parents', log)) :
    (alookup pmap key = none ∧ parents' = parents ∧ log = [(key, child)]) ∨
    (∃ i obj, alookup pmap key = some i ∧ parents[i]? = some obj ∧ log = [] ∧
      ((alookup obj ctype = none ∧
        parents' = parents.set i (obj ++ [(ctype, Val.arr [child])])) ∨
       (∃ l, alookup obj ctype = some (Val.arr l) ∧
        parents' = parents.set i (replaceField obj ctype (Val.arr (l ++ [child])))))) := by
  cases hi : alookup pmap key with
  | none =>
    rw [append_to_obj_none_eq hi] at h
    obtain ⟨h1, h2⟩ := Prod.mk.injEq .. ▸ Except.ok.inj h
    exact .inl ⟨rfl, h1.symm, h2.symm⟩
  | some i =>
    cases hobj : parents[i]? with
    | none => rw [append_to_obj_oob_eq hi hobj] at h; cases h
    | some obj =>
      cases hf : alookup obj ctype with
      | none =>
        rw [append_to_obj_create_eq hi hobj hf] at h
        obtain ⟨h1, h2⟩ := Prod.mk.injEq .. ▸ Except.ok.inj h
        exact .inr ⟨i, obj, rfl, hobj, h2.symm, .inl ⟨hf, h1.symm⟩⟩
      | some w =>
        cases w with
        | s v => rw [append_to_obj_attr_eq hi hobj hf] at h; cases h
        | arr l =>
          rw [append_to_obj_append_eq hi hobj hf] at h
          obtain ⟨h1, h2⟩ := Prod.mk.injEq .. ▸ Except.ok.inj h
          exact .inr ⟨i, obj, rfl, hobj, h2.symm, .inr ⟨l, hf, h1.symm⟩⟩

/-- C3: the parent-attach helper's contract.  If the key is absent from the
index map, the helper raises no exception (`.ok`), emits exactly one
diagnostic carrying the unresolved key and the orphaned child record (the
printed message on source lines 206-208 is a function of this pair), and
returns the parent sequence entirely unchanged.  If the key is present
(resolving to an in-range position `i`), the helper creates the named
child-list field on that parent when absent (as a fresh one-element list) and
otherwise appends the child at the end of the existing list — so repeated
attaches to the same parent preserve arrival order. -/
theorem append_to_obj_contract (parents : List Obj) (pmap : IdxMap)
    (key : Cell) (ctype : String) (child : Obj) :
    (alookup pmap key = none →
      append_to_obj parents pmap key ctype child = .ok (parents, [(key, child)])) ∧
    (∀ i obj, alookup pmap key = some i → parents[i]? = some obj →
      (alookup obj ctype = none →
        append_to_obj parents pmap key ctype child =
          .ok (parents.set i (obj ++ [(ctype, Val.arr [child])]), [])) ∧
      (∀ l, alookup obj ctype = some (Val.arr l) →
        append_to_obj parents pmap key ctype child =
          .ok (parents.set i (replaceField obj ctype (Val.arr (l ++ [child]))), []))) := by
  refine ⟨fun h => ?_, fun i obj hi hobj => ⟨fun hn => ?_, fun l hl => ?_⟩⟩ <;>
    simp [append_to_obj, *]

/-- Witness for C3 at concrete inputs: one unresolved key (diagnostic, no
mutation), one attach creating the child list, one attach appending to an
existing child list. -/
theorem append_to_obj_contract_witness :
    append_to_obj w3Parents w3Map (some "z") "cs" w3Child
      = .ok (w3Parents, [(some "z", w3Child)]) ∧
    append_to_obj w3Parents w3Map (some "k") "cs" w3Child
      = .ok (w3Parents.set 0 ([("a", Val.s (some "x"))] ++ [("cs", Val.arr [w3Child])]), []) ∧
    append_to_obj w3Parents w3Map (some "m") "cs" w3Child
      = .ok (w3Parents.set 1 (replaceField [("cs", Val.arr [[("q", Val.s none)]])] "cs"
          (Val.arr ([[("q", Val.s none)]] ++ [w3Child]))), []) :=
  ⟨(append_to_obj_contract w3Parents w3Map (some "z") "cs" w3Child).1 rfl,
   ((append_to_obj_contract w3Parents w3Map (some "k") "cs" w3Child).2 0 _ rfl rfl).1 rfl,
   ((append_to_obj_contract w3Parents w3Map (some "m") "cs" w3Child).2 1 _ rfl rfl).2
     [[("q", Val.s none)]] rfl⟩

/-- C10: frame property of a successful attach.  When the key resolves to an
in-range position `i` whose parent's `ctype` field is absent or already a
list, the helper returns `.ok` with no diagnostics, the result is the parent
sequence with only position `i` replaced (every other record is unchanged and
the length is preserved), and the replaced record differs from the original
only at the named child-list field (which ends up holding a list).  The
helper reads but never writes the index map, which is untouched. -/
theorem append_to_obj_frame (parents : List Obj) (pmap : IdxMap) (key : Cell)
    (ctype : String) (child : Obj) (i : Nat) (obj : Obj)
    (hi : alookup pmap key = some i) (hobj : parents[i]? = some obj)
    (hshape : alookup obj ctype = none ∨ ∃ l, alookup obj ctype = some (Val.arr l)) :
    ∃ obj', append_to_obj parents pmap key ctype child = .ok (parents.set i obj', []) ∧
      (∀ j, j ≠ i → (parents.set i obj')[j]? = parents[j]?) ∧
      (parents.set i obj').length = parents.length ∧
      (∀ g, g ≠ ctype → alookup obj' g = alookup obj g) ∧
      (∃ l', alookup obj' ctype = some (Val.arr l')) := by
  rcases hshape with hn | ⟨l, hl⟩
  · refine ⟨obj ++ [(ctype, Val.arr [child])],
      append_to_obj_create_eq hi hobj hn,
      fun j hj => List.getElem?_set_ne (Ne.symm hj), by simp,
      fun g hg => alookup_append_single_ne obj ctype g _ hg,
      [child], alookup_append_single_self obj ctype _ hn⟩
  · refine ⟨replaceField obj ctype (Val.arr (l ++ [child])),
      append_to_obj_append_eq hi hobj hl,
      fun j hj => List.getElem?_set_ne (Ne.symm hj), by simp,
      fun g hg => alookup_replaceField obj ctype _ g hg,
      l ++ [child], alookup_replaceField_self obj ctype _ (by simp [hl])⟩

theorem splitDokumentcdw_foldl : ∀ (row : Row) (d c : Obj),
    row.foldl splitStep (d, c) = (d ++ docFields row, c ++ cdwFields row)
  | [], d, c => by simp [docFields, cdwFields]
  | kv :: row, d, c => by
    simp only [List.foldl_cons, docFields, cdwFields, List.filterMap_cons]
    by_cases h : kv.1 ∈ cdw_keys
    · simp only [splitStep, if_pos h, splitDokumentcdw_foldl row, docFields, cdwFields]
      simp
    · simp only [splitStep, if_neg h, splitDokumentcdw_foldl row, docFields, cdwFields]
      simp

theorem splitDokumentcdw_eq (row : Row) :
    splitDokumentcdw row = (docFields row, cdwFields row) := by
  simpa using splitDokumentcdw_foldl row [] []

theorem alookup_docFields_of_mem_cdw (row : Row) (k : String)
    (hk : k ∈ cdw_keys) : alookup (docFields row) k = none := by
  induction row with
  | nil => simp [docFields, alookup]
  | cons kv rest ih =>
    simp only [docFields, List.filterMap_cons] at ih ⊢
    by_cases h : kv.1 ∈ cdw_keys
    · simpa [if_pos h] using ih
    · have : kv.1 ≠ k := fun hh => h (hh ▸ hk)
      simpa [if_neg h, alookup, this] using ih

theorem alookup_cdwFields_of_not_mem (row : Row) (k : String)
    (hk : k ∉ cdw_keys) : alookup (cdwFields row) k = none := by
  induction row with
  | nil => simp [cdwFields, alookup]
  | cons kv rest ih =>
    simp only [cdwFields, List.filterMap_cons] at ih ⊢
    by_cases h : kv.1 ∈ cdw_keys
    · have : kv.1 ≠ k := fun hh => hk (hh ▸ h)
      simpa [if_pos h, alookup, this] using ih
    · simpa [if_neg h] using ih

theorem alookup_docFields (row : Row) (k : String) (hk : k ∉ cdw_keys) :
    alookup (docFields row) k =
      (alookup row k).map (fun v => Val.s (some (v.getD ""))) := by
  induction row with
  | nil => simp [docFields, alookup]
  | cons kv rest ih =>
    simp only [docFields, List.filterMap_cons] at ih ⊢
    by_cases h : kv.1 ∈ cdw_keys
    · have : kv.1 ≠ k := fun hh => hk (hh ▸ h)
      simpa [if_pos h, alookup, this] using ih
    · by_cases h1 : kv.1 = k
      · simp [if_neg h, alookup, h1, hk]
      · simpa [if_neg h, alookup, h1] using ih

theorem alookup_cdwFields (row : Row) (k : String) (hk : k ∈ cdw_keys) :
    alookup (cdwFields row) k =
      (alookup row k).map (fun v => Val.s (some (v.getD ""))) := by
  induction row with
  | nil => simp [cdwFields, alookup]
  | cons kv rest ih =>
    simp only [cdwFields, List.filterMap_cons] at ih ⊢
    by_cases h : kv.1 ∈ cdw_keys
    · by_cases h1 : kv.1 = k
      · simp [if_pos h, alookup, h1, hk]
      · simpa [if_pos h, alookup, h1] using ih
    · have : kv.1 ≠ k := fun hh => h (hh ▸ hk)
      simpa [if_neg h, alookup, this] using ih

/-- C4: for every combined row, the fields are partitioned exactly between
the `cdw` (attachment) object and the `dokument` (document) object: each of
the ten enumerated attachment field names never occurs in the document
object, every other field name never occurs in the attachment object, every
row field lands (null-normalized, `None` becoming `""`) in exactly the side
its name selects, and every field of either side comes from a row field.
So no field occurs on both sides and no field is dropped. -/
theorem split_partition (row : Row) :
    (∀ k, k ∈ cdw_keys → alookup (splitDokumentcdw row).1 k = none) ∧
    (∀ k, k ∉ cdw_keys → alookup (splitDokumentcdw row).2 k = none) ∧
    (∀ k v, (k, v) ∈ row →
      (k, Val.s (some (v.getD ""))) ∈
        (if k ∈ cdw_keys then (splitDokumentcdw row).2 else (splitDokumentcdw row).1)) ∧
    (∀ k w, (k, w) ∈ (splitDokumentcdw row).1 ∨ (k, w) ∈ (splitDokumentcdw row).2 →
      ∃ v, (k, v) ∈ row ∧ w = Val.s (some (v.getD ""))) := by
  rw [splitDokumentcdw_eq]
  refine ⟨fun k hk => alookup_docFields_of_mem_cdw row k hk,
    fun k hk => alookup_cdwFields_of_not_mem row k hk,
    fun k v hv => ?_, fun k w hw => ?_⟩
  · by_cases h : k ∈ cdw_keys
    · simp only [if_pos h, cdwFields, List.mem_filterMap]
      exact ⟨(k, v), hv, by simp [h]⟩
    · simp only [if_neg h, docFields, List.mem_filterMap]
      exact ⟨(k, v), hv, by simp [h]⟩
  · rcases hw with hw | hw
    · simp only [docFields, List.mem_filterMap] at hw
      obtain ⟨kv, hmem, hf⟩ := hw
      by_cases h : kv.1 ∈ cdw_keys
      · simp [if_pos h] at hf
      · simp only [if_neg h, Option.some.injEq, Prod.mk.injEq] at hf
        exact ⟨kv.2, by rwa [← hf.1, Prod.mk.eta], hf.2.symm⟩
    · simp only [cdwFields, List.mem_filterMap] at hw
      obtain ⟨kv, hmem, hf⟩ := hw
      by_cases h : kv.1 ∈ cdw_keys
      · simp only [if_pos h, Option.some.injEq, Prod.mk.injEq] at hf
        exact ⟨kv.2, by rwa [← hf.1, Prod.mk.eta], hf.2.symm⟩
      · simp [if_neg h] at hf

/-- Witness for C4 at the concrete row: the attachment field `cdw_id` is not
in the document part, the document field `x` is not in the attachment part,
the null `cdw_id` lands in the attachment part normalized to `""`, and the
`x` entry of the document part comes from the row. -/
theorem split_partition_witness :
    alookup (splitDokumentcdw c4Row).1 "cdw_id" = none ∧
    alookup (splitDokumentcdw c4Row).2 "x" = none ∧
    ("cdw_id", Val.s (some "")) ∈
      (if "cdw_id" ∈ cdw_keys then (splitDokumentcdw c4Row).2
       else (splitDokumentcdw c4Row).1) ∧
    ∃ v, ("x", v) ∈ c4Row ∧ Val.s (some "1") = Val.s (some (v.getD "")) :=
  ⟨(split_partition c4Row).1 "cdw_id" (by decide),
   (split_partition c4Row).2.1 "x" (by decide),
   by simpa using (split_partition c4Row).2.2.1 "cdw_id" none (by decide),
   (split_partition c4Row).2.2.2 "x" (Val.s (some "1"))
     (.inl (List.Mem.tail _ (List.Mem.head _)))⟩

/-! ### Claims C6 and C7: fatal errors -/

theorem exceptBind_ok {α β : Type} (v : α) (f : α → Except Err β) :
    (Except.ok v >>= f) = f v := rfl

theorem exceptBind_error {α β : Type} (e : Err) (f : α → Except Err β) :
    ((Except.error e : Except Err α) >>= f) = .error e := rfl

theorem exceptPure_bind {α β : Type} (v : α) (f : α → Except Err β) :
    ((pure v : Except Err α) >>= f) = f v := rfl

theorem exceptPure_eq_ok {α : Type} (v : α) : (pure v : Except Err α) = .ok v := rfl

theorem valToKey_s (c : Cell) : valToKey (Val.s c) = .ok c := rfl

theorem buildFileIdx_append : ∀ (l1 l2 : List Row) (acc : GrpIdx × GrpIdx × GrpIdx),
    buildFileIdx (l1 ++ l2) acc =
      match buildFileIdx l1 acc with
      | .error e => .error e
      | .ok a => buildFileIdx l2 a
  | [], l2, acc => by simp [buildFileIdx]
  | r :: rs, l2, acc => by
    simp only [List.cons_append, buildFileIdx]
    cases hs : filStep acc r with
    | error e => simp [hs, exceptBind_error]
    | ok a => simp [hs, exceptBind_ok, buildFileIdx_append rs l2 a]

theorem buildFileIdx_append_bind (l1 l2 : List Row)
    (acc : GrpIdx × GrpIdx × GrpIdx) :
    buildFileIdx (l1 ++ l2) acc
      = buildFileIdx l1 acc >>= fun a => buildFileIdx l2 a := by
  rw [buildFileIdx_append]
  cases buildFileIdx l1 acc <;> rfl

theorem filStep_unrecognized (acc : GrpIdx × GrpIdx × GrpIdx) (bad : Row)
    (tn : Cell) (htn : alookup bad "notes_template_name" = some tn)
    (hbad : ∀ s, tn = some s → s ∉ recognizedKinds) :
    filStep acc bad = .error (.keyErrorKind tn) := by
  have h1 : getField bad "notes_template_name" = .ok tn :=
    (getField_ok_iff _ _ _).mpr htn
  simp only [filStep, h1, exceptBind_ok]
  cases tn with
  | none => rfl
  | some s =>
    have hd : s ≠ "dokument" := fun h => hbad s rfl (h ▸ by decide)
    have hc : s ≠ "cdw" := fun h => hbad s rfl (h ▸ by decide)
    have hn : s ≠ "notat" := fun h => hbad s rfl (h ▸ by decide)
    split <;> simp_all

/-- C6: a `fil.csv` row whose owner-kind discriminator
(`notes_template_name`) is not one of the three recognized literal values
(`"dokument"`, `"cdw"`, `"notat"`) makes `dict_mapping[...]` on source line
65 raise `KeyError`, which aborts the whole run with an error — the entire
`cirius` call returns that error, no output is produced, and the row is never
silently dropped. -/
theorem unrecognized_owner_kind_aborts (pre post : List Row) (bad : Row)
    (tn : Cell) (idxs : GrpIdx × GrpIdx × GrpIdx)
    (hpre : buildFileIdx pre ([], [], []) = .ok idxs)
    (htn : alookup bad "notes_template_name" = some tn)
    (hbad : ∀ s, tn = some s → s ∉ recognizedKinds)
    (sagRows dokRows notatRows : List Row) :
    cirius true true true true (pre ++ bad :: post) sagRows dokRows notatRows
      = .error (.keyErrorKind tn) ∧
    writtenOutput (cirius true true true true (pre ++ bad :: post)
      sagRows dokRows notatRows) = none := by
  have hidx : buildFileIdx (pre ++ bad :: post) ([], [], [])
      = .error (.keyErrorKind tn) := by
    rw [buildFileIdx_append, hpre]
    show buildFileIdx (bad :: post) idxs = _
    simp only [buildFileIdx]
    rw [filStep_unrecognized idxs bad tn htn hbad]
    rfl
  have hmain : cirius true true true true (pre ++ bad :: post) sagRows dokRows
      notatRows = .error (.keyErrorKind tn) := by
    simp [cirius, hidx, exceptBind_error]
  exact ⟨hmain, by rw [hmain]; rfl⟩

/-- Witness for C6: with the unrecognized owner kind `"sag"` in the file
table, the whole run aborts with the `KeyError` and writes nothing. -/
theorem unrecognized_owner_kind_aborts_witness :
    cirius true true true true [c6Bad] [] [] [] = .error (.keyErrorKind (some "sag")) ∧
    writtenOutput (cirius true true true true [c6Bad] [] [] []) = none := by
  have := unrecognized_owner_kind_aborts [] [] c6Bad (some "sag") ([], [], [])
    rfl rfl (by intro s hs hmem; cases hs; revert hmem; decide) [] [] []
  simpa using this

/-- C7: error handling at the boundaries.  First conjunct: whenever any of
the four required input files is missing, the run aborts with the
missing-files error regardless of every table's contents — so before any row
is processed.  Second conjunct: any aborted run (any error, at any stage)
produces no output at all: the output file's content `writtenOutput` exists
only for a successful run, mirroring that `cirius.json` is opened and written
only after the full tree is built (source lines 187-189), so partial output
is never written. -/
theorem missing_input_aborts_no_partial_output :
    (∀ (b1 b2 b3 b4 : Bool) (fr sr dr nr : List Row),
      (b1 && b2 && b3 && b4) = false →
      cirius b1 b2 b3 b4 fr sr dr nr = .error .missingFiles) ∧
    (∀ (b1 b2 b3 b4 : Bool) (fr sr dr nr : List Row) (e : Err),
      cirius b1 b2 b3 b4 fr sr dr nr = .error e →
      writtenOutput (cirius b1 b2 b3 b4 fr sr dr nr) = none) := by
  constructor
  · intro b1 b2 b3 b4 fr sr dr nr h
    simp [cirius, h]
  · intro b1 b2 b3 b4 fr sr dr nr e h
    rw [h]
    rfl

/-- Witness for C7: a run missing `notat.csv` aborts with the missing-files
error and writes nothing, whatever the other tables contain. -/
theorem missing_input_aborts_witness :
    cirius true true true false [c6Bad] [c1Sag] [c1Dok "a1"] [] = .error .missingFiles ∧
    writtenOutput (cirius true true true false [c6Bad] [c1Sag] [c1Dok "a1"] []) = none :=
  ⟨missing_input_aborts_no_partial_output.1 true true true false _ _ _ _ rfl,
   missing_input_aborts_no_partial_output.2 true true true false _ _ _ _ .missingFiles
     (missing_input_aborts_no_partial_output.1 true true true false _ _ _ _ rfl)⟩

theorem replaceField_take_of_alookup_take_none :
    ∀ (o : Obj) (n : Nat) (k : String) (v : Val),
    alookup (o.take n) k = none → (replaceField o k v).take n = o.take n
  | [], _, _, _, _ => by simp [replaceField]
  | kv :: rest, 0, k, v, h => by simp
  | kv :: rest, n + 1, k, v, h => by
    simp only [List.take_succ_cons, alookup] at h ⊢
    by_cases h1 : kv.1 = k
    · simp [h1] at h
    · rw [if_neg h1] at h
      simp only [replaceField, if_neg h1, List.take_succ_cons]
      rw [replaceField_take_of_alookup_take_none rest n k v h]

theorem take_eq_embedRow_bounds {o : Obj} {r : Row}
    (h : o.take r.length = embedRow r) : r.length ≤ o.length := by
  have := congrArg List.length h
  simp only [List.length_take, embedRow, List.length_map] at this
  omega

theorem alookup_take_embedRow_none {o : Obj} {r : Row} {k : String} {l : List Obj}
    (h : o.take r.length = embedRow r) (hl : alookup o k = some (Val.arr l)) :
    alookup (o.take r.length) k = none := by
  cases hk : alookup (o.take r.length) k with
  | none => rfl
  | some w =>
    exfalso
    have hsplit : alookup o k = some w := by
      conv_lhs => rw [← List.take_append_drop r.length o]
      rw [alookup_append, hk]
    rw [hsplit] at hl
    rw [h, alookup_embedRow] at hk
    cases hv : alookup r k with
    | none => rw [hv] at hk; cases hk
    | some v =>
      rw [hv] at hk
      have hw : Val.s v = w := by simpa using hk
      rw [← hw] at hl
      cases hl

theorem append_to_obj_prefixInv {sr : List Row} {parents parents' : List Obj}
    {pmap : IdxMap} {key : Cell} {ctype : String} {child : Obj} {log : List Diag}
    (h : append_to_obj parents pmap key ctype child = .ok (parents', log))
    (hinv : PrefixInv sr parents) : PrefixInv sr parents' := by
  rcases append_to_obj_ok_cases h with ⟨_, hp, _⟩ | ⟨i, obj, hi, hobj, _, hcase⟩
  · exact hp ▸ hinv
  · have hlen : parents.length = sr.length := hinv.1
    rcases hcase with ⟨hf, hp⟩ | ⟨l, hf, hp⟩
    · subst hp
      refine ⟨by simpa using hlen, fun j r o hr ho => ?_⟩
      by_cases hj : j = i
      · subst hj
        have hjlt : j < parents.length := by
          have := (List.getElem?_eq_some_iff.mp hobj).1
          omega
        rw [List.getElem?_set_self hjlt, Option.some_inj] at ho
        have hold := hinv.2 j r obj hr hobj
        have hle := take_eq_embedRow_bounds hold
        rw [← ho, List.take_append_of_le_length hle]
        exact hold
      · rw [List.getElem?_set_ne (fun hh => hj hh.symm)] at ho
        exact hinv.2 j r o hr ho
    · subst hp
      refine ⟨by simpa using hlen, fun j r o hr ho => ?_⟩
      by_cases hj : j = i
      · subst hj
        have hjlt : j < parents.length := by
          have := (List.getElem?_eq_some_iff.mp hobj).1
          omega
        rw [List.getElem?_set_self hjlt, Option.some_inj] at ho
        have hold := hinv.2 j r obj hr hobj
        have hnone := alookup_take_embedRow_none hold hf
        rw [← ho, replaceField_take_of_alookup_take_none obj r.length ctype _ hnone]
        exact hold
      · rw [List.getElem?_set_ne (fun hh => hj hh.symm)] at ho
        exact hinv.2 j r o hr ho

theorem dokToSagStep_prefixInv {sr : List Row} {smap : IdxMap}
    {st st' : List Obj × List Diag} {d : Obj}
    (h : dokToSagStep smap st d = .ok st') (hinv : PrefixInv sr st.1) :
    PrefixInv sr st'.1 := by
  unfold dokToSagStep at h
  cases h1 : objGet d "SagsNr" with
  | error e => rw [h1] at h; simp [exceptBind_error] at h
  | ok v =>
    rw [h1] at h
    simp only [exceptBind_ok] at h
    cases h2 : valToKey v with
    | error e => rw [h2] at h; simp [exceptBind_error] at h
    | ok key =>
      rw [h2] at h
      simp only [exceptBind_ok] at h
      cases h3 : append_to_obj st.1 smap key "dokumentListe" d with
      | error e => rw [h3] at h; simp [exceptBind_error] at h
      | ok r =>
        rw [h3] at h
        simp only [exceptBind_ok] at h
        have : (r.1, st.2 ++ r.2) = st' := Except.ok.inj h
        rw [← this]
        exact append_to_obj_prefixInv h3 hinv

theorem attachDokumenter_prefixInv {sr : List Row} {smap : IdxMap} :
    ∀ {ds : List Obj} {st st' : List Obj × List Diag},
    attachDokumenter smap ds st = .ok st' → PrefixInv sr st.1 → PrefixInv sr st'.1
  | [], st, st', h, hinv => by
    have : st = st' := Except.ok.inj h
    exact this ▸ hinv
  | d :: ds, st, st', h, hinv => by
    simp only [attachDokumenter] at h
    cases h1 : dokToSagStep smap st d with
    | error e => rw [h1] at h; simp [exceptBind_error] at h
    | ok st1 =>
      rw [h1] at h
      simp only [exceptBind_ok] at h
      exact attachDokumenter_prefixInv h (dokToSagStep_prefixInv h1 hinv)

theorem notatStep_prefixInv {sr : List Row} {nFiles : GrpIdx} {smap : IdxMap}
    {st st' : List Obj × List Diag} {r : Row}
    (h : notatStep nFiles smap st r = .ok st') (hinv : PrefixInv sr st.1) :
    PrefixInv sr st'.1 := by
  unfold notatStep at h
  cases h1 : getField r "notat_id" with
  | error e => rw [h1] at h; simp [exceptBind_error] at h
  | ok nid =>
    rw [h1] at h
    simp only [exceptBind_ok] at h
    cases h2 : getField r "SagsNr" with
    | error e => rw [h2] at h; simp [exceptBind_error] at h
    | ok sagsnr =>
      rw [h2] at h
      simp only [exceptBind_ok] at h
      cases h3 : append_to_obj st.1 smap sagsnr "notatListe"
          (match alookup nFiles nid with
           | some files => setField (embedRow r) "filListe" (Val.arr files)
           | none => embedRow r) with
      | error e => rw [h3] at h; simp [exceptBind_error] at h
      | ok res =>
        rw [h3] at h
        simp only [exceptBind_ok] at h
        have : (res.1, st.2 ++ res.2) = st' := Except.ok.inj h
        rw [← this]
        exact append_to_obj_prefixInv h3 hinv

theorem processNotater_prefixInv {sr : List Row} {nFiles : GrpIdx} {smap : IdxMap} :
    ∀ {rows : List Row} {st st' : List Obj × List Diag},
    processNotater nFiles smap rows st = .ok st' → PrefixInv sr st.1 → PrefixInv sr st'.1
  | [], st, st', h, hinv => by
    have : st = st' := Except.ok.inj h
    exact this ▸ hinv
  | r :: rs, st, st', h, hinv => by
    simp only [processNotater] at h
    cases h1 : notatStep nFiles smap st r with
    | error e => rw [h1] at h; simp [exceptBind_error] at h
    | ok st1 =>
      rw [h1] at h
      simp only [exceptBind_ok] at h
      exact processNotater_prefixInv h (notatStep_prefixInv h1 hinv)

theorem prefixInv_init (sr : List Row) : PrefixInv sr (sr.map embedRow) := by
  refine ⟨by simp, fun i r o hr ho => ?_⟩
  rw [List.getElem?_map, hr] at ho
  have hoe : embedRow r = o := by simpa using ho
  rw [← hoe]
  have hlen : r.length = (embedRow r).length := by simp [embedRow]
  rw [hlen, List.take_length]

/-- Inversion of a successful `cirius` run into its five stages. -/
theorem cirius_ok_inversion {b1 b2 b3 b4 : Bool} {fr sr dr nr : List Row}
    {out : List Obj} {log : List Diag}
    (h : cirius b1 b2 b3 b4 fr sr dr nr = .ok (out, log)) :
    ∃ idxs sm dst sd se,
      buildFileIdx fr ([], [], []) = .ok idxs ∧
      buildSager sr [] [] = .ok sm ∧
      processDokumentcdw idxs.1 idxs.2.1 dr ([], [], []) = .ok dst ∧
      attachDokumenter sm.2 dst.1 (sm.1, []) = .ok sd ∧
      processNotater idxs.2.2 sm.2 nr (sd.1, []) = .ok se ∧
      out = se.1 ∧ log = dst.2.2 ++ sd.2 ++ se.2 := by
  unfold cirius at h
  cases hb : (b1 && b2 && b3 && b4) with
  | false => rw [hb] at h; simp at h
  | true =>
    rw [hb] at h
    rw [if_neg (by decide : ¬((!true) = true))] at h
    cases hA : buildFileIdx fr ([], [], []) with
    | error e => rw [hA] at h; simp [exceptBind_error] at h
    | ok idxs =>
      rw [hA] at h
      simp only [exceptBind_ok] at h
      cases hB : buildSager sr [] [] with
      | error e => rw [hB] at h; simp [exceptBind_error] at h
      | ok sm =>
        rw [hB] at h
        simp only [exceptBind_ok] at h
        cases hC : processDokumentcdw idxs.1 idxs.2.1 dr ([], [], []) with
        | error e => rw [hC] at h; simp [exceptBind_error] at h
        | ok dst =>
          rw [hC] at h
          simp only [exceptBind_ok] at h
          cases hD : attachDokumenter sm.2 dst.1 (sm.1, []) with
          | error e => rw [hD] at h; simp [exceptBind_error] at h
          | ok sd =>
            rw [hD] at h
            simp only [exceptBind_ok] at h
            cases hE : processNotater idxs.2.2 sm.2 nr (sd.1, []) with
            | error e => rw [hE] at h; simp [exceptBind_error] at h
            | ok se =>
              rw [hE] at h
              simp only [exceptBind_ok] at h
              have hpair := Except.ok.inj h
              exact ⟨idxs, sm, dst, sd, se, rfl, rfl, hC, hD, hE,
                (Prod.mk.injEq .. ▸ hpair).1.symm, (Prod.mk.injEq .. ▸ hpair).2.symm⟩

/-- C8: for every successful run, the output array has exactly one case
object per source case row, in exactly the source row order: the i-th output
object begins with precisely the fields of the i-th case row (embedded
unchanged, in column order); attaching documents and notes only ever appends
or extends child-list fields after them, never reorders or removes a case.
This holds regardless of the order in which document and note rows reference
the cases. -/
theorem case_objects_in_source_order (b1 b2 b3 b4 : Bool)
    (fr sr dr nr : List Row) (out : List Obj) (log : List Diag)
    (h : cirius b1 b2 b3 b4 fr sr dr nr = .ok (out, log)) :
    out.length = sr.length ∧
    ∀ (i : Nat) (r : Row) (o : Obj), sr[i]? = some r → out[i]? = some o →
      o.take r.length = embedRow r := by
  obtain ⟨idxs, sm, dst, sd, se, hA, hB, hC, hD, hE, hout, hlog⟩ :=
    cirius_ok_inversion h
  have hsag : sm.1 = sr.map embedRow := by
    have := buildSager_sager sr [] [] sm.1 sm.2 (by
      rw [hB])
    simpa using this
  have inv0 : PrefixInv sr sm.1 := hsag ▸ prefixInv_init sr
  have invD : PrefixInv sr sd.1 := attachDokumenter_prefixInv hD inv0
  have invE : PrefixInv sr se.1 := processNotater_prefixInv hE invD
  subst hout
  exact ⟨invE.1, invE.2⟩

/-! ### Claim C5: `filListe` fields are exactly the matching file rows -/

theorem alookup_setField_ne (o : Obj) (k : String) (v : Val) (g : String)
    (h : g ≠ k) : alookup (setField o k v) g = alookup o g := by
  unfold setField
  cases hl : alookup o k with
  | none => exact alookup_append_single_ne o k g v h
  | some w => exact alookup_replaceField o k v g h

theorem alookup_setField_self (o : Obj) (k : String) (v : Val) :
    alookup (setField o k v) k = some v := by
  unfold setField
  cases hl : alookup o k with
  | none => exact alookup_append_single_self o k v hl
  | some w => exact alookup_replaceField_self o k v (by simp [hl])

theorem optAppend_nil (o : Option (List Obj)) : optAppend o [] = o := by
  cases o <;> simp [optAppend]

theorem optAppend_optAppend (o : Option (List Obj)) (l1 l2 : List Obj) :
    optAppend (optAppend o l1) l2 = optAppend o (l1 ++ l2) := by
  cases o with
  | none =>
    cases l1 with
    | nil => simp [optAppend]
    | cons x xs => cases l2 <;> simp [optAppend]
  | some l0 => cases l1 <;> cases l2 <;> simp [optAppend]

theorem alookup_gadd_self_optAppend {κ : Type} [DecidableEq κ]
    (m : List (κ × List Obj)) (k : κ) (v : Obj) :
    alookup (gadd m k v) k = optAppend (alookup m k) [v] := by
  rw [alookup_gadd]
  cases alookup m k <;> simp [optAppend]

/-- Characterization of the file-index pass: each of the three indexes maps
`k` to the group already in the accumulator extended by every matching file
row, in source order. -/
theorem buildFileIdx_lookup : ∀ (rows : List Row) (acc : GrpIdx × GrpIdx × GrpIdx)
    (idxs : GrpIdx × GrpIdx × GrpIdx), buildFileIdx rows acc = .ok idxs → ∀ k,
    alookup idxs.1 k = optAppend (alookup acc.1 k) (filesFor "dokument" k rows) ∧
    alookup idxs.2.1 k = optAppend (alookup acc.2.1 k) (filesFor "cdw" k rows) ∧
    alookup idxs.2.2 k = optAppend (alookup acc.2.2 k) (filesFor "notat" k rows)
  | [], acc, idxs, h, k => by
    have : acc = idxs := Except.ok.inj h
    subst this
    simp [filesFor, optAppend_nil]
  | r :: rs, acc, idxs, h, k => by
    simp only [buildFileIdx] at h
    cases hs : filStep acc r with
    | error e => rw [hs] at h; simp [exceptBind_error] at h
    | ok acc1 =>
      rw [hs] at h
      simp only [exceptBind_ok] at h
      have ih := buildFileIdx_lookup rs acc1 idxs h k
      -- invert the single file-row step
      unfold filStep at hs
      cases htn : getField r "notes_template_name" with
      | error e => rw [htn] at hs; simp [exceptBind_error] at hs
      | ok tn =>
        rw [htn] at hs
        simp only [exceptBind_ok] at hs
        have htn' : alookup r "notes_template_name" = some tn :=
          (getField_ok_iff _ _ _).mp htn
        split at hs
        · -- owner kind "dokument"
          cases htid : getField r "notes_template_id" with
          | error e => rw [htid] at hs; simp [exceptBind_error] at hs
          | ok tid =>
            rw [htid] at hs
            simp only [exceptBind_ok] at hs
            have htid' : alookup r "notes_template_id" = some tid :=
              (getField_ok_iff _ _ _).mp htid
            have hacc1 : acc1 = (gadd acc.1 tid (embedRow r), acc.2.1, acc.2.2) :=
              (Except.ok.inj hs).symm
            subst hacc1
            refine ⟨?_, ?_, ?_⟩
            · rw [ih.1]
              simp only [filesFor, List.filter_cons]
              by_cases hk : tid = k
              · subst hk
                rw [if_pos (by simp [matchesFil, htn', htid'])]
                rw [alookup_gadd_self_optAppend, optAppend_optAppend]
                simp
              · rw [if_neg (by simp [matchesFil, htn', htid', hk])]
                rw [alookup_gadd, if_neg (fun hh : k = tid => hk hh.symm)]
            · rw [ih.2.1]
              simp only [filesFor, List.filter_cons]
              rw [if_neg (by simp [matchesFil, htn'])]
            · rw [ih.2.2]
              simp only [filesFor, List.filter_cons]
              rw [if_neg (by simp [matchesFil, htn'])]
        · -- owner kind "cdw"
          cases htid : getField r "notes_template_id" with
          | error e => rw [htid] at hs; simp [exceptBind_error] at hs
          | ok tid =>
            rw [htid] at hs
            simp only [exceptBind_ok] at hs
            have htid' : alookup r "notes_template_id" = some tid :=
              (getField_ok_iff _ _ _).mp htid
            have hacc1 : acc1 = (acc.1, gadd acc.2.1 tid (embedRow r), acc.2.2) :=
              (Except.ok.inj hs).symm
            subst hacc1
            refine ⟨?_, ?_, ?_⟩
            · rw [ih.1]
              simp only [filesFor, List.filter_cons]
              rw [if_neg (by simp [matchesFil, htn'])]
            · rw [ih.2.1]
              simp only [filesFor, List.filter_cons]
              by_cases hk : tid = k
              · subst hk
                rw [if_pos (by simp [matchesFil, htn', htid'])]
                rw [alookup_gadd_self_optAppend, optAppend_optAppend]
                simp
              · rw [if_neg (by simp [matchesFil, htn', htid', hk])]
                rw [alookup_gadd, if_neg (fun hh : k = tid => hk hh.symm)]
            · rw [ih.2.2]
              simp only [filesFor, List.filter_cons]
              rw [if_neg (by simp [matchesFil, htn'])]
        · -- owner kind "notat"
          cases htid : getField r "notes_template_id" with
          | error e => rw [htid] at hs; simp [exceptBind_error] at hs
          | ok tid =>
            rw [htid] at hs
            simp only [exceptBind_ok] at hs
            have htid' : alookup r "notes_template_id" = some tid :=
              (getField_ok_iff _ _ _).mp htid
            have hacc1 : acc1 = (acc.1, acc.2.1, gadd acc.2.2 tid (embedRow r)) :=
              (Except.ok.inj hs).symm
            subst hacc1
            refine ⟨?_, ?_, ?_⟩
            · rw [ih.1]
              simp only [filesFor, List.filter_cons]
              rw [if_neg (by simp [matchesFil, htn'])]
            · rw [ih.2.1]
              simp only [filesFor, List.filter_cons]
              rw [if_neg (by simp [matchesFil, htn'])]
            · rw [ih.2.2]
              simp only [filesFor, List.filter_cons]
              by_cases hk : tid = k
              · subst hk
                rw [if_pos (by simp [matchesFil, htn', htid'])]
                rw [alookup_gadd_self_optAppend, optAppend_optAppend]
                simp
              · rw [if_neg (by simp [matchesFil, htn', htid', hk])]
                rw [alookup_gadd, if_neg (fun hh : k = tid => hk hh.symm)]
        · -- unrecognized owner kind: the step raised, contradicting `.ok`
          simp at hs

/-- The `Val`-level reading of the file-index characterization: looking up an
owner id in an index built from an empty accumulator and wrapping it as an
array value gives exactly the expected optional `filListe` value. -/
theorem buildFileIdx_expected {fr : List Row} {idxs : GrpIdx × GrpIdx × GrpIdx}
    (h : buildFileIdx fr ([], [], []) = .ok idxs) (k : Cell) :
    (alookup idxs.1 k).map Val.arr = expectedFiles "dokument" k fr ∧
    (alookup idxs.2.1 k).map Val.arr = expectedFiles "cdw" k fr ∧
    (alookup idxs.2.2 k).map Val.arr = expectedFiles "notat" k fr := by
  have h3 := buildFileIdx_lookup fr ([], [], []) idxs h k
  refine ⟨?_, ?_, ?_⟩
  · rw [h3.1]
    cases hf : filesFor "dokument" k fr <;> simp [optAppend, alookup, expectedFiles, hf]
  · rw [h3.2.1]
    cases hf : filesFor "cdw" k fr <;> simp [optAppend, alookup, expectedFiles, hf]
  · rw [h3.2.2]
    cases hf : filesFor "notat" k fr <;> simp [optAppend, alookup, expectedFiles, hf]

theorem pyValInObjList_false (v : Val) (l : List Obj) :
    pyValInObjList v l = false := by
  simp [pyValInObjList]

theorem set_append_len (D : List Obj) (x y : Obj) :
    (D ++ [x]).set D.length y = D ++ [y] := by
  simp

theorem docBase_alookup_ne (dF : GrpIdx) (r : Row) (g : String)
    (hg : g ≠ "filListe") :
    alookup (docBase dF r) g = alookup (splitDokumentcdw r).1 g := by
  unfold docBase
  cases alookup dF (some (dokIdN r)) with
  | none => rfl
  | some files => exact alookup_setField_ne _ _ _ g hg

theorem docBase_cdwListe (dF : GrpIdx) (r : Row)
    (hcl : alookup r "cdwListe" = none) :
    alookup (docBase dF r) "cdwListe" = none := by
  rw [docBase_alookup_ne dF r _ (by decide), splitDokumentcdw_eq]
  rw [alookup_docFields r _ (by decide), hcl]
  rfl

/-- Characterization of one iteration of the `dokumentcdw.csv` loop under row
hygiene: every row registers a fresh document record (the broken dedup check
of line 139 is always true), overwrites the document index entry for its own
id with the new position, and — when its attachment id is non-empty — either
appends its attachment to that fresh record (raw document id a string) or
emits one orphan diagnostic (raw document id `None`). -/
theorem dokStep_char (dF cF : GrpIdx) (D : List Obj) (M : IdxMap)
    (L : List Diag) (r : Row) (hM : alookup M none = none)
    (hid : ∃ v, alookup r "dokument_id" = some v)
    (hcid : ∃ v, alookup r "cdw_id" = some v)
    (hcl : alookup r "cdwListe" = none) :
    dokStep dF cF (D, M, L) r =
      .ok (D ++ [docRecord dF cF r], ainsert M (some (dokIdN r)) D.length,
        L ++ dokDiag1 cF r) := by
  obtain ⟨v, hv⟩ := hid
  obtain ⟨w, hw⟩ := hcid
  have hidN : dokIdN r = v.getD "" := by simp [dokIdN, hv]
  have hcdN : cdwIdN r = w.getD "" := by simp [cdwIdN, hw]
  have hraw : rawDokId r = v := by simp [rawDokId, hv]
  have h1 : objGet (splitDokumentcdw r).1 "dokument_id"
      = .ok (Val.s (some (dokIdN r))) := by
    rw [splitDokumentcdw_eq]
    unfold objGet
    rw [alookup_docFields r _ (by decide), hv]
    simp [hidN]
  have h2 : objGet (splitDokumentcdw r).2 "cdw_id"
      = .ok (Val.s (some (cdwIdN r))) := by
    rw [splitDokumentcdw_eq]
    unfold objGet
    rw [alookup_cdwFields r _ (by decide), hw]
    simp [hcdN]
  have hd1cl : alookup (docBase dF r) "cdwListe" = none := docBase_cdwListe dF r hcl
  have hgf : getField r "dokument_id" = .ok v := (getField_ok_iff _ _ _).mpr hv
  simp only [dokStep]
  rw [h1]
  simp only [exceptBind_ok]
  rw [if_neg (by simp [pyValInObjList])]
  simp only [valToKey_s, exceptBind_ok, exceptPure_bind]
  have hfoldD : (match alookup dF (some (dokIdN r)) with
      | some files => setField (splitDokumentcdw r).1 "filListe" (Val.arr files)
      | none => (splitDokumentcdw r).1) = docBase dF r := rfl
  have hfoldC : (match alookup cF (some (cdwIdN r)) with
      | some files => setField (splitDokumentcdw r).2 "filListe" (Val.arr files)
      | none => (splitDokumentcdw r).2) = cdwRecord cF r := rfl
  rw [hfoldD, h2]
  simp only [exceptBind_ok]
  have hlen1 : (D ++ [docBase dF r]).length - 1 = D.length := by simp
  by_cases hc : cdwIdN r = ""
  · rw [if_neg (by simp [valNeEmptyStr, hc])]
    have hdiag : dokDiag1 cF r = [] := by simp [dokDiag1, hc]
    have hdoc : docRecord dF cF r = docBase dF r := by
      rw [docRecord, if_neg (by simp [hc])]
    simp [hdoc, hdiag, hlen1, exceptPure_eq_ok]
  · rw [if_pos (by simp [valNeEmptyStr, hc])]
    simp only [valToKey_s, exceptBind_ok]
    rw [hgf]
    simp only [exceptBind_ok, hfoldC, hlen1]
    cases hvv : v with
    | some sId =>
      have hsid : dokIdN r = sId := by rw [hidN, hvv]; rfl
      have hkey : alookup (ainsert M (some (dokIdN r)) D.length) (some sId)
          = some D.length := by
        rw [alookup_ainsert, if_pos (by rw [hsid])]
      rw [append_to_obj_create_eq hkey (List.getElem?_concat_length D _) hd1cl,
        set_append_len]
      rw [hvv] at hraw
      have hdoc : docRecord dF cF r
          = docBase dF r ++ [("cdwListe", Val.arr [cdwRecord cF r])] := by
        rw [docRecord, if_pos ⟨hc, by rw [hraw]; rfl⟩]
      have hdiag : dokDiag1 cF r = [] := by simp [dokDiag1, hraw, hc]
      simp [hdoc, hdiag, exceptPure_eq_ok, exceptBind_ok]
    | none =>
      rw [hvv] at hraw
      have hkey : alookup (ainsert M (some (dokIdN r)) D.length) none = none := by
        rw [alookup_ainsert, if_neg (by simp)]
        exact hM
      rw [append_to_obj_none_eq hkey]
      have hdiag : dokDiag1 cF r = [(none, cdwRecord cF r)] := by
        simp [dokDiag1, hraw, hc]
      have hdoc : docRecord dF cF r = docBase dF r := by
        rw [docRecord, if_neg (by simp [hraw])]
      simp [hdoc, hdiag, exceptPure_eq_ok, exceptBind_ok]

/-- Characterization of the whole `dokumentcdw.csv` pass under row hygiene:
one document record per source row (no dedup), plus the orphan diagnostics. -/
theorem processDok_char (dF cF : GrpIdx) :
    ∀ (rows : List Row) (D : List Obj) (M : IdxMap) (L : List Diag),
    (∀ r ∈ rows, (∃ v, alookup r "dokument_id" = some v) ∧
      (∃ v, alookup r "cdw_id" = some v) ∧ alookup r "cdwListe" = none) →
    alookup M none = none →
    ∃ M', processDokumentcdw dF cF rows (D, M, L)
        = .ok (D ++ rows.map (docRecord dF cF), M', L ++ dokDiags cF rows)
  | [], D, M, L, _, _ => ⟨M, by simp [processDokumentcdw, dokDiags]⟩
  | r :: rs, D, M, L, hyg, hM => by
    have hr := hyg r (List.mem_cons_self r rs)
    have hstep := dokStep_char dF cF D M L r hM hr.1 hr.2.1 hr.2.2
    have hM1 : alookup (ainsert M (some (dokIdN r)) D.length) none = none := by
      rw [alookup_ainsert, if_neg (by simp)]
      exact hM
    obtain ⟨M', hM'⟩ := processDok_char dF cF rs (D ++ [docRecord dF cF r])
      (ainsert M (some (dokIdN r)) D.length) (L ++ dokDiag1 cF r)
      (fun r' hr' => hyg r' (List.mem_cons_of_mem _ hr')) hM1
    refine ⟨M', ?_⟩
    simp only [processDokumentcdw]
    rw [hstep]
    simp only [exceptBind_ok]
    rw [hM']
    simp [dokDiags, List.append_assoc]

/-! Field readers of the constructed records. -/

theorem cdwRecord_filListe (cF : GrpIdx) (r : Row) :
    alookup (cdwRecord cF r) "filListe"
      = (alookup cF (some (cdwIdN r))).map Val.arr := by
  have hbase : alookup (splitDokumentcdw r).2 "filListe" = none := by
    rw [splitDokumentcdw_eq]
    exact alookup_cdwFields_of_not_mem r _ (by decide)
  unfold cdwRecord
  cases hcF : alookup cF (some (cdwIdN r)) with
  | none => simpa using hbase
  | some files => simp [alookup_setField_self]

theorem cdwRecord_cdw_id (cF : GrpIdx) (r : Row) (w : Cell)
    (hw : alookup r "cdw_id" = some w) :
    alookup (cdwRecord cF r) "cdw_id" = some (Val.s (some (cdwIdN r))) := by
  have hbase : alookup (splitDokumentcdw r).2 "cdw_id"
      = some (Val.s (some (cdwIdN r))) := by
    rw [splitDokumentcdw_eq, alookup_cdwFields r _ (by decide), hw]
    simp [cdwIdN, hw]
  unfold cdwRecord
  cases hcF : alookup cF (some (cdwIdN r)) with
  | none => exact hbase
  | some files =>
    rw [alookup_setField_ne _ _ _ _ (by decide)]
    exact hbase

theorem docBase_filListe (dF : GrpIdx) (r : Row)
    (hfil : alookup r "filListe" = none) :
    alookup (docBase dF r) "filListe"
      = (alookup dF (some (dokIdN r))).map Val.arr := by
  have hbase : alookup (splitDokumentcdw r).1 "filListe" = none := by
    rw [splitDokumentcdw_eq, alookup_docFields r _ (by decide), hfil]
    rfl
  unfold docBase
  cases hdF : alookup dF (some (dokIdN r)) with
  | none => simpa using hbase
  | some files => simp [alookup_setField_self]

theorem docRecord_filListe (dF cF : GrpIdx) (r : Row)
    (hfil : alookup r "filListe" = none) :
    alookup (docRecord dF cF r) "filListe"
      = (alookup dF (some (dokIdN r))).map Val.arr := by
  unfold docRecord
  split
  · rw [alookup_append_single_ne _ _ _ _ (by decide)]
    exact docBase_filListe dF r hfil
  · exact docBase_filListe dF r hfil

theorem docRecord_dokument_id (dF cF : GrpIdx) (r : Row) (v : Cell)
    (hv : alookup r "dokument_id" = some v) :
    alookup (docRecord dF cF r) "dokument_id"
      = some (Val.s (some (dokIdN r))) := by
  have hbase : alookup (docBase dF r) "dokument_id"
      = some (Val.s (some (dokIdN r))) := by
    rw [docBase_alookup_ne dF r _ (by decide), splitDokumentcdw_eq,
      alookup_docFields r _ (by decide), hv]
    simp [dokIdN, hv]
  unfold docRecord
  split
  · rw [alookup_append_single_ne _ _ _ _ (by decide)]
    exact hbase
  · exact hbase

theorem docRecord_docCdws (dF cF : GrpIdx) (r : Row)
    (hcl : alookup r "cdwListe" = none) :
    docCdws (docRecord dF cF r)
      = if cdwIdN r ≠ "" ∧ (rawDokId r).isSome then [cdwRecord cF r] else [] := by
  unfold docRecord
  split
  · next hcond =>
    have := alookup_append_single_self (docBase dF r) "cdwListe"
      (Val.arr [cdwRecord cF r]) (docBase_cdwListe dF r hcl)
    simp [docCdws, fieldObjs, this]
  · next hcond =>
    simp [docCdws, fieldObjs, docBase_cdwListe dF r hcl]

theorem noteRecord_filListe (nF : GrpIdx) (r : Row)
    (hfil : alookup r "filListe" = none) :
    alookup (noteRecord nF r) "filListe"
      = (alookup nF ((alookup r "notat_id").getD none)).map Val.arr := by
  have hbase : alookup (embedRow r) "filListe" = none := by
    rw [alookup_embedRow, hfil]
    rfl
  unfold noteRecord
  cases hnF : alookup nF ((alookup r "notat_id").getD none) with
  | none => simpa using hbase
  | some files => simp [alookup_setField_self]

/-! Tracking which objects can appear in the nested child lists. -/

theorem fieldObjs_append_other (f : String) (o : Obj) (g : String) (v : Val)
    (hne : g ≠ f) : fieldObjs f (o ++ [(g, v)]) = fieldObjs f o := by
  unfold fieldObjs
  rw [alookup_append_single_ne _ _ _ _ (Ne.symm hne)]

theorem fieldObjs_replace_other (f : String) (o : Obj) (g : String) (v : Val)
    (hne : g ≠ f) : fieldObjs f (replaceField o g v) = fieldObjs f o := by
  unfold fieldObjs
  rw [alookup_replaceField _ _ _ _ (Ne.symm hne)]

theorem fieldObjs_append_self (f : String) (o : Obj) (c : Obj)
    (hf : alookup o f = none) :
    fieldObjs f (o ++ [(f, Val.arr [c])]) = [c] := by
  unfold fieldObjs
  rw [alookup_append_single_self _ _ _ hf]

theorem fieldObjs_replace_self (f : String) (o : Obj) (l : List Obj) (c : Obj)
    (hf : alookup o f = some (Val.arr l)) :
    fieldObjs f (replaceField o f (Val.arr (l ++ [c]))) = fieldObjs f o ++ [c] := by
  unfold fieldObjs
  rw [alookup_replaceField_self _ _ _ (by simp [hf]), hf]

theorem Track_append_to_obj_other {f : String} {allowed sager sager' : List Obj}
    {pmap : IdxMap} {key : Cell} {ct : String} {child : Obj} {log : List Diag}
    (hne : ct ≠ f)
    (h : append_to_obj sager pmap key ct child = .ok (sager', log))
    (ht : Track f allowed sager) : Track f allowed sager' := by
  rcases append_to_obj_ok_cases h with ⟨_, hp, _⟩ | ⟨i, obj, hi, hobj, _, hcase⟩
  · exact hp ▸ ht
  · intro o ho
    have hmem : obj ∈ sager := List.getElem?_mem hobj
    rcases hcase with ⟨hf, hp⟩ | ⟨l, hf, hp⟩ <;> subst hp <;>
      rcases List.mem_or_eq_of_mem_set ho with h1 | h1
    · exact ht o h1
    · subst h1
      rw [fieldObjs_append_other f obj ct _ hne]
      exact ht obj hmem
    · exact ht o h1
    · subst h1
      rw [fieldObjs_replace_other f obj ct _ hne]
      exact ht obj hmem

theorem Track_append_to_obj_self {f : String} {allowed sager sager' : List Obj}
    {pmap : IdxMap} {key : Cell} {child : Obj} {log : List Diag}
    (h : append_to_obj sager pmap key f child = .ok (sager', log))
    (hc : child ∈ allowed)
    (ht : Track f allowed sager) : Track f allowed sager' := by
  rcases append_to_obj_ok_cases h with ⟨_, hp, _⟩ | ⟨i, obj, hi, hobj, _, hcase⟩
  · exact hp ▸ ht
  · intro o ho
    have hmem : obj ∈ sager := List.getElem?_mem hobj
    rcases hcase with ⟨hf, hp⟩ | ⟨l, hf, hp⟩ <;> subst hp <;>
      rcases List.mem_or_eq_of_mem_set ho with h1 | h1
    · exact ht o h1
    · subst h1
      rw [fieldObjs_append_self f obj child hf]
      intro d hd
      rw [List.mem_singleton] at hd
      exact hd ▸ hc
    · exact ht o h1
    · subst h1
      rw [fieldObjs_replace_self f obj l child hf]
      intro d hd
      rcases List.mem_append.mp hd with hd | hd
      · exact ht obj hmem d hd
      · rw [List.mem_singleton] at hd
        exact hd ▸ hc

theorem NoFil_append_to_obj {sager sager' : List Obj} {pmap : IdxMap}
    {key : Cell} {ct : String} {child : Obj} {log : List Diag}
    (hne : ct ≠ "filListe")
    (h : append_to_obj sager pmap key ct child = .ok (sager', log))
    (hn : NoFil sager) : NoFil sager' := by
  rcases append_to_obj_ok_cases h with ⟨_, hp, _⟩ | ⟨i, obj, hi, hobj, _, hcase⟩
  · exact hp ▸ hn
  · intro o ho
    have hmem : obj ∈ sager := List.getElem?_mem hobj
    rcases hcase with ⟨hf, hp⟩ | ⟨l, hf, hp⟩ <;> subst hp <;>
      rcases List.mem_or_eq_of_mem_set ho with h1 | h1
    · exact hn o h1
    · subst h1
      rw [alookup_append_single_ne _ _ _ _ (Ne.symm hne)]
      exact hn obj hmem
    · exact hn o h1
    · subst h1
      rw [alookup_replaceField _ _ _ _ (Ne.symm hne)]
      exact hn obj hmem

theorem dokToSagStep_ok {smap : IdxMap} {st st' : List Obj × List Diag} {d : Obj}
    (h : dokToSagStep smap st d = .ok st') :
    ∃ key log, append_to_obj st.1 smap key "dokumentListe" d = .ok (st'.1, log) := by
  unfold dokToSagStep at h
  cases h1 : objGet d "SagsNr" with
  | error e => rw [h1] at h; simp [exceptBind_error] at h
  | ok v =>
    rw [h1] at h
    simp only [exceptBind_ok] at h
    cases h2 : valToKey v with
    | error e => rw [h2] at h; simp [exceptBind_error] at h
    | ok key =>
      rw [h2] at h
      simp only [exceptBind_ok] at h
      cases h3 : append_to_obj st.1 smap key "dokumentListe" d with
      | error e => rw [h3] at h; simp [exceptBind_error] at h
      | ok r =>
        rw [h3] at h
        simp only [exceptBind_ok] at h
        have hst : (r.1, st.2 ++ r.2) = st' := Except.ok.inj h
        exact ⟨key, r.2, by rw [← hst]; exact h3⟩

theorem notatStep_ok {nF : GrpIdx} {smap : IdxMap} {st st' : List Obj × List Diag}
    {r : Row} (h : notatStep nF smap st r = .ok st') :
    ∃ nid key log, alookup r "notat_id" = some nid ∧
      append_to_obj st.1 smap key "notatListe" (noteRecord nF r) = .ok (st'.1, log) := by
  unfold notatStep at h
  cases h1 : getField r "notat_id" with
  | error e => rw [h1] at h; simp [exceptBind_error] at h
  | ok nid =>
    rw [h1] at h
    simp only [exceptBind_ok] at h
    have hnid : alookup r "notat_id" = some nid := (getField_ok_iff _ _ _).mp h1
    have hfold : (match alookup nF nid with
        | some files => setField (embedRow r) "filListe" (Val.arr files)
        | none => embedRow r) = noteRecord nF r := by
      unfold noteRecord
      rw [hnid]
      rfl
    rw [hfold] at h
    cases h2 : getField r "SagsNr" with
    | error e => rw [h2] at h; simp [exceptBind_error] at h
    | ok sagsnr =>
      rw [h2] at h
      simp only [exceptBind_ok] at h
      cases h3 : append_to_obj st.1 smap sagsnr "notatListe" (noteRecord nF r) with
      | error e => rw [h3] at h; simp [exceptBind_error] at h
      | ok res =>
        rw [h3] at h
        simp only [exceptBind_ok] at h
        have hst : (res.1, st.2 ++ res.2) = st' := Except.ok.inj h
        exact ⟨nid, sagsnr, res.2, hnid, by rw [← hst]; exact h3⟩

theorem attachDokumenter_invariants {smap : IdxMap} {allowedD allowedN : List Obj} :
    ∀ {ds : List Obj} {st st' : List Obj × List Diag},
    attachDokumenter smap ds st = .ok st' →
    (∀ d ∈ ds, d ∈ allowedD) →
    Track "dokumentListe" allowedD st.1 → Track "notatListe" allowedN st.1 →
    NoFil st.1 →
    Track "dokumentListe" allowedD st'.1 ∧ Track "notatListe" allowedN st'.1 ∧
      NoFil st'.1
  | [], st, st', h, _, h1, h2, h3 => by
    have : st = st' := Except.ok.inj h
    exact this ▸ ⟨h1, h2, h3⟩
  | d :: ds, st, st', h, hds, h1, h2, h3 => by
    simp only [attachDokumenter] at h
    cases hstep : dokToSagStep smap st d with
    | error e => rw [hstep] at h; simp [exceptBind_error] at h
    | ok st1 =>
      rw [hstep] at h
      simp only [exceptBind_ok] at h
      obtain ⟨key, log, happ⟩ := dokToSagStep_ok hstep
      exact attachDokumenter_invariants h
        (fun d' hd' => hds d' (List.mem_cons_of_mem _ hd'))
        (Track_append_to_obj_self happ (hds d (List.mem_cons_self d ds)) h1)
        (Track_append_to_obj_other (by decide) happ h2)
        (NoFil_append_to_obj (by decide) happ h3)

theorem processNotater_invariants {nF : GrpIdx} {smap : IdxMap}
    {allowedD allowedN : List Obj} :
    ∀ {rows : List Row} {st st' : List Obj × List Diag},
    processNotater nF smap rows st = .ok st' →
    (∀ r ∈ rows, noteRecord nF r ∈ allowedN) →
    Track "dokumentListe" allowedD st.1 → Track "notatListe" allowedN st.1 →
    NoFil st.1 →
    Track "dokumentListe" allowedD st'.1 ∧ Track "notatListe" allowedN st'.1 ∧
      NoFil st'.1
  | [], st, st', h, _, h1, h2, h3 => by
    have : st = st' := Except.ok.inj h
    exact this ▸ ⟨h1, h2, h3⟩
  | r :: rs, st, st', h, hrows, h1, h2, h3 => by
    simp only [processNotater] at h
    cases hstep : notatStep nF smap st r with
    | error e => rw [hstep] at h; simp [exceptBind_error] at h
    | ok st1 =>
      rw [hstep] at h
      simp only [exceptBind_ok] at h
      obtain ⟨nid, key, log, hnid, happ⟩ := notatStep_ok hstep
      exact processNotater_invariants h
        (fun r' hr' => hrows r' (List.mem_cons_of_mem _ hr'))
        (Track_append_to_obj_other (by decide) happ h1)
        (Track_append_to_obj_self happ (hrows r (List.mem_cons_self r rs)) h2)
        (NoFil_append_to_obj (by decide) happ h3)

theorem fieldObjs_embedRow (f : String) (r : Row) :
    fieldObjs f (embedRow r) = [] := by
  unfold fieldObjs
  rw [alookup_embedRow]
  cases alookup r f <;> rfl

theorem Track_init (f : String) (allowed : List Obj) (sr : List Row) :
    Track f allowed (sr.map embedRow) := by
  intro o ho d hd
  obtain ⟨r, _, hr⟩ := List.mem_map.mp ho
  rw [← hr, fieldObjs_embedRow] at hd
  cases hd

theorem NoFil_init (sr : List Row) (hs : ∀ r ∈ sr, alookup r "filListe" = none) :
    NoFil (sr.map embedRow) := by
  intro o ho
  obtain ⟨r, hrmem, hr⟩ := List.mem_map.mp ho
  rw [← hr, alookup_embedRow, hs r hrmem]
  rfl

theorem mem_docsOf {out : List Obj} {o : Obj} :
    o ∈ docsOf out ↔ ∃ s ∈ out, o ∈ sagDokumente s := by
  induction out with
  | nil => simp [docsOf]
  | cons s rest ih =>
    simp only [docsOf, List.foldr_cons, List.mem_append]
    constructor
    · rintro (h | h)
      · exact ⟨s, List.mem_cons_self s rest, h⟩
      · obtain ⟨s', hs', ho⟩ := ih.mp h
        exact ⟨s', List.mem_cons_of_mem _ hs', ho⟩
    · rintro ⟨s', hs', ho⟩
      rcases List.mem_cons.mp hs' with rfl | hs'
      · exact .inl ho
      · exact .inr (ih.mpr ⟨s', hs', ho⟩)

theorem mem_notesOf {out : List Obj} {o : Obj} :
    o ∈ notesOf out ↔ ∃ s ∈ out, o ∈ sagNotater s := by
  induction out with
  | nil => simp [notesOf]
  | cons s rest ih =>
    simp only [notesOf, List.foldr_cons, List.mem_append]
    constructor
    · rintro (h | h)
      · exact ⟨s, List.mem_cons_self s rest, h⟩
      · obtain ⟨s', hs', ho⟩ := ih.mp h
        exact ⟨s', List.mem_cons_of_mem _ hs', ho⟩
    · rintro ⟨s', hs', ho⟩
      rcases List.mem_cons.mp hs' with rfl | hs'
      · exact .inl ho
      · exact .inr (ih.mpr ⟨s', hs', ho⟩)

theorem mem_foldr_append {ds : List Obj} {o : Obj} {f : Obj → List Obj} :
    o ∈ ds.foldr (fun d acc => f d ++ acc) [] ↔ ∃ d ∈ ds, o ∈ f d := by
  induction ds with
  | nil => simp
  | cons d rest ih =>
    simp only [List.foldr_cons, List.mem_append]
    constructor
    · rintro (h | h)
      · exact ⟨d, List.mem_cons_self d rest, h⟩
      · obtain ⟨d', hd', ho⟩ := ih.mp h
        exact ⟨d', List.mem_cons_of_mem _ hd', ho⟩
    · rintro ⟨d', hd', ho⟩
      rcases List.mem_cons.mp hd' with rfl | hd'
      · exact .inl ho
      · exact .inr (ih.mpr ⟨d', hd', ho⟩)

theorem mem_cdwsOf {out : List Obj} {o : Obj} :
    o ∈ cdwsOf out ↔ ∃ d ∈ docsOf out, o ∈ docCdws d := by
  unfold cdwsOf
  exact mem_foldr_append

/-- C5: in every successful hygienic run, each record kind carries exactly
the right `filListe`.  Case objects never get one (no file row can name a
case as owner).  Every document object in the output carries a `filListe`
field exactly when at least one file row matches `(dokument, its id)`, and
then the field is precisely the matching file rows in source order — and
likewise for attachment objects with owner kind `cdw` and note objects with
owner kind `notat` (keyed by the note's raw `notat_id`).  Absence of matches
means the field is absent, not an empty list, and the single field per
record embodies at-most-once attachment. -/
theorem files_lists_exact (b1 b2 b3 b4 : Bool) (fr sr dr nr : List Row)
    (out : List Obj) (log : List Diag)
    (h : cirius b1 b2 b3 b4 fr sr dr nr = .ok (out, log))
    (hs : ∀ r ∈ sr, alookup r "filListe" = none)
    (hd : ∀ r ∈ dr, (∃ v, alookup r "dokument_id" = some v) ∧
      (∃ v, alookup r "cdw_id" = some v) ∧
      alookup r "cdwListe" = none ∧ alookup r "filListe" = none)
    (hn : ∀ r ∈ nr, (∃ v, alookup r "notat_id" = some v) ∧
      alookup r "filListe" = none) :
    (∀ o ∈ out, alookup o "filListe" = none) ∧
    (∀ o ∈ docsOf out, ∃ r ∈ dr,
      alookup o "dokument_id" = some (Val.s (some (dokIdN r))) ∧
      alookup o "filListe" = expectedFiles "dokument" (some (dokIdN r)) fr) ∧
    (∀ o ∈ cdwsOf out, ∃ r ∈ dr, cdwIdN r ≠ "" ∧
      alookup o "cdw_id" = some (Val.s (some (cdwIdN r))) ∧
      alookup o "filListe" = expectedFiles "cdw" (some (cdwIdN r)) fr) ∧
    (∀ o ∈ notesOf out, ∃ r ∈ nr, ∃ nid, alookup r "notat_id" = some nid ∧
      alookup o "filListe" = expectedFiles "notat" nid fr) := by
  obtain ⟨idxs, sm, dst, sd, se, hA, hB, hC, hD, hE, hout, hlog⟩ :=
    cirius_ok_inversion h
  subst hout
  obtain ⟨M', hM'⟩ := processDok_char idxs.1 idxs.2.1 dr [] [] []
    (fun r hr => ⟨(hd r hr).1, (hd r hr).2.1, (hd r hr).2.2.1⟩) (by simp [alookup])
  have hdst : dst.1 = dr.map (docRecord idxs.1 idxs.2.1) := by
    have := Except.ok.inj (hC.symm.trans hM')
    rw [this]
    simp
  have hsag : sm.1 = sr.map embedRow := by
    simpa using buildSager_sager sr [] [] sm.1 sm.2 (by rw [hB])
  have ht0D : Track "dokumentListe" dst.1 sm.1 := by
    rw [hsag]
    exact Track_init _ _ sr
  have ht0N : Track "notatListe" (nr.map (noteRecord idxs.2.2)) sm.1 := by
    rw [hsag]
    exact Track_init _ _ sr
  have h0F : NoFil sm.1 := by
    rw [hsag]
    exact NoFil_init sr hs
  obtain ⟨hD1, hD2, hD3⟩ :=
    attachDokumenter_invariants hD (fun d hd' => hd') ht0D ht0N h0F
  obtain ⟨hE1, hE2, hE3⟩ :=
    processNotater_invariants hE (fun r hr => List.mem_map_of_mem _ hr) hD1 hD2 hD3
  refine ⟨hE3, ?_, ?_, ?_⟩
  · intro o ho
    obtain ⟨s, hsmem, hos⟩ := mem_docsOf.mp ho
    have hmem : o ∈ dst.1 := hE1 s hsmem o hos
    rw [hdst] at hmem
    obtain ⟨r, hrmem, hreq⟩ := List.mem_map.mp hmem
    obtain ⟨v, hv⟩ := (hd r hrmem).1
    refine ⟨r, hrmem, ?_, ?_⟩
    · rw [← hreq]
      exact docRecord_dokument_id _ _ r v hv
    · rw [← hreq, docRecord_filListe _ _ r (hd r hrmem).2.2.2]
      exact (buildFileIdx_expected hA _).1
  · intro o ho
    obtain ⟨dobj, hdmem, hod⟩ := mem_cdwsOf.mp ho
    obtain ⟨s, hsmem, hds'⟩ := mem_docsOf.mp hdmem
    have hmem : dobj ∈ dst.1 := hE1 s hsmem dobj hds'
    rw [hdst] at hmem
    obtain ⟨r, hrmem, hreq⟩ := List.mem_map.mp hmem
    rw [← hreq, docRecord_docCdws _ _ r (hd r hrmem).2.2.1] at hod
    by_cases hcond : cdwIdN r ≠ "" ∧ (rawDokId r).isSome
    · rw [if_pos hcond, List.mem_singleton] at hod
      subst hod
      obtain ⟨w, hw⟩ := (hd r hrmem).2.1
      refine ⟨r, hrmem, hcond.1, cdwRecord_cdw_id _ r w hw, ?_⟩
      rw [cdwRecord_filListe]
      exact (buildFileIdx_expected hA _).2.1
    · rw [if_neg hcond] at hod
      cases hod
  · intro o ho
    obtain ⟨s, hsmem, hos⟩ := mem_notesOf.mp ho
    have hmem : o ∈ nr.map (noteRecord idxs.2.2) := hE2 s hsmem o hos
    obtain ⟨r, hrmem, hreq⟩ := List.mem_map.mp hmem
    obtain ⟨nid, hnid⟩ := (hn r hrmem).1
    refine ⟨r, hrmem, nid, hnid, ?_⟩
    rw [← hreq, noteRecord_filListe _ r (hn r hrmem).2, hnid]
    exact (buildFileIdx_expected hA _).2.2

/-- Witness for C5 at a concrete run: one file row owned by the document, a
document row with one attachment, and one note row. -/
theorem files_lists_exact_witness :
    (∀ o ∈ [c5Out], alookup o "filListe" = none) ∧
    (∀ o ∈ docsOf [c5Out], ∃ r ∈ [c1Dok "a1"],
      alookup o "dokument_id" = some (Val.s (some (dokIdN r))) ∧
      alookup o "filListe" = expectedFiles "dokument" (some (dokIdN r)) [c5Fil]) ∧
    (∀ o ∈ cdwsOf [c5Out], ∃ r ∈ [c1Dok "a1"], cdwIdN r ≠ "" ∧
      alookup o "cdw_id" = some (Val.s (some (cdwIdN r))) ∧
      alookup o "filListe" = expectedFiles "cdw" (some (cdwIdN r)) [c5Fil]) ∧
    (∀ o ∈ notesOf [c5Out], ∃ r ∈ [c5Not], ∃ nid, alookup r "notat_id" = some nid ∧
      alookup o "filListe" = expectedFiles "notat" nid [c5Fil]) :=
  files_lists_exact true true true true [c5Fil] [c1Sag] [c1Dok "a1"] [c5Not]
    [c5Out] [] rfl
    (by decide)
    (fun r hr => by
      rw [List.mem_singleton] at hr
      subst hr
      exact ⟨⟨some "d", rfl⟩, ⟨some "a1", rfl⟩, rfl, rfl⟩)
    (fun r hr => by
      rw [List.mem_singleton] at hr
      subst hr
      exact ⟨⟨some "n", rfl⟩, rfl⟩)

theorem gadd_agree {ex : Cell → Prop} {m m' : GrpIdx}
    (h : GrpAgree ex m m') (k : Cell) (v : Obj) :
    GrpAgree ex (gadd m k v) (gadd m' k v) := by
  intro k' hk'
  rw [alookup_gadd, alookup_gadd]
  by_cases hkk : k' = k
  · subst hkk
    rw [if_pos rfl, if_pos rfl, h k' hk']
  · rw [if_neg hkk, if_neg hkk]
    exact h k' hk'

theorem filStep_rel {exD exC exN : Cell → Prop}
    {acc acc' : GrpIdx × GrpIdx × GrpIdx}
    (h : IdxsRel exD exC exN acc acc') (r : Row) :
    ExceptRel (IdxsRel exD exC exN) (filStep acc r) (filStep acc' r) := by
  unfold filStep
  cases htn : getField r "notes_template_name" with
  | error e => simp [exceptBind_error, ExceptRel]
  | ok tn =>
    simp only [exceptBind_ok]
    split
    · cases htid : getField r "notes_template_id" with
      | error e => simp [exceptBind_error, ExceptRel]
      | ok tid =>
        simp only [exceptBind_ok, exceptPure_eq_ok, ExceptRel]
        exact ⟨gadd_agree h.1 tid _, h.2.1, h.2.2⟩
    · cases htid : getField r "notes_template_id" with
      | error e => simp [exceptBind_error, ExceptRel]
      | ok tid =>
        simp only [exceptBind_ok, exceptPure_eq_ok, ExceptRel]
        exact ⟨h.1, gadd_agree h.2.1 tid _, h.2.2⟩
    · cases htid : getField r "notes_template_id" with
      | error e => simp [exceptBind_error, ExceptRel]
      | ok tid =>
        simp only [exceptBind_ok, exceptPure_eq_ok, ExceptRel]
        exact ⟨h.1, h.2.1, gadd_agree h.2.2 tid _⟩
    · simp [ExceptRel]

theorem buildFileIdx_rel {exD exC exN : Cell → Prop} :
    ∀ (rows : List Row) (acc acc' : GrpIdx × GrpIdx × GrpIdx),
    IdxsRel exD exC exN acc acc' →
    ExceptRel (IdxsRel exD exC exN) (buildFileIdx rows acc) (buildFileIdx rows acc')
  | [], acc, acc', h => by simpa [buildFileIdx, ExceptRel] using h
  | r :: rs, acc, acc', h => by
    simp only [buildFileIdx]
    have hstep := filStep_rel h r
    cases h1 : filStep acc r with
    | error e =>
      cases h2 : filStep acc' r with
      | error e' =>
        rw [h1, h2] at hstep
        simp only [ExceptRel] at hstep
        subst hstep
        simp [exceptBind_error, ExceptRel]
      | ok a' =>
        rw [h1, h2] at hstep
        simp [ExceptRel] at hstep
    | ok a =>
      cases h2 : filStep acc' r with
      | error e' =>
        rw [h1, h2] at hstep
        simp [ExceptRel] at hstep
      | ok a' =>
        rw [h1, h2] at hstep
        simp only [ExceptRel] at hstep
        simp only [exceptBind_ok]
        exact buildFileIdx_rel rs a a' hstep

theorem dokStep_cong {dF dF' cF cF' : GrpIdx} (st : List Obj × IdxMap × List Diag)
    (r : Row)
    (hD : alookup dF (some (dokIdN r)) = alookup dF' (some (dokIdN r)))
    (hC : alookup cF (some (cdwIdN r)) = alookup cF' (some (cdwIdN r))) :
    dokStep dF cF st r = dokStep dF' cF' st r := by
  cases hv : alookup r "dokument_id" with
  | none =>
    have h1 : objGet (splitDokumentcdw r).1 "dokument_id"
        = .error (.keyError "dokument_id") := by
      rw [splitDokumentcdw_eq]
      unfold objGet
      rw [alookup_docFields r _ (by decide), hv]
      rfl
    simp only [dokStep]
    rw [h1]
    simp [exceptBind_error]
  | some v =>
    have h1 : objGet (splitDokumentcdw r).1 "dokument_id"
        = .ok (Val.s (some (dokIdN r))) := by
      rw [splitDokumentcdw_eq]
      unfold objGet
      rw [alookup_docFields r _ (by decide), hv]
      simp [dokIdN, hv]
    simp only [dokStep]
    rw [h1]
    simp only [exceptBind_ok]
    rw [if_neg (by simp [pyValInObjList]), if_neg (by simp [pyValInObjList])]
    simp only [valToKey_s, exceptBind_ok, exceptPure_bind]
    rw [hD]
    cases hw : alookup r "cdw_id" with
    | none =>
      have h2 : objGet (splitDokumentcdw r).2 "cdw_id"
          = .error (.keyError "cdw_id") := by
        rw [splitDokumentcdw_eq]
        unfold objGet
        rw [alookup_cdwFields r _ (by decide), hw]
        rfl
      rw [h2]
      simp [exceptBind_error]
    | some w =>
      have h2 : objGet (splitDokumentcdw r).2 "cdw_id"
          = .ok (Val.s (some (cdwIdN r))) := by
        rw [splitDokumentcdw_eq]
        unfold objGet
        rw [alookup_cdwFields r _ (by decide), hw]
        simp [cdwIdN, hw]
      rw [h2]
      simp only [exceptBind_ok]
      by_cases hc : cdwIdN r = ""
      · rw [if_neg (by simp [valNeEmptyStr, hc]), if_neg (by simp [valNeEmptyStr, hc])]
      · rw [if_pos (by simp [valNeEmptyStr, hc]), if_pos (by simp [valNeEmptyStr, hc])]
        simp only [valToKey_s, exceptBind_ok]
        rw [hC]

theorem processDok_cong {dF dF' cF cF' : GrpIdx} :
    ∀ (rows : List Row) (st : List Obj × IdxMap × List Diag),
    (∀ r ∈ rows,
      alookup dF (some (dokIdN r)) = alookup dF' (some (dokIdN r)) ∧
      alookup cF (some (cdwIdN r)) = alookup cF' (some (cdwIdN r))) →
    processDokumentcdw dF cF rows st = processDokumentcdw dF' cF' rows st
  | [], st, _ => rfl
  | r :: rs, st, hag => by
    simp only [processDokumentcdw]
    rw [dokStep_cong st r (hag r (List.mem_cons_self r rs)).1
      (hag r (List.mem_cons_self r rs)).2]
    cases hstep : dokStep dF' cF' st r with
    | error e => simp [exceptBind_error]
    | ok st1 =>
      simp only [exceptBind_ok]
      exact processDok_cong rs st1 (fun r' hr' => hag r' (List.mem_cons_of_mem _ hr'))

theorem notatStep_cong {nF nF' : GrpIdx} {smap : IdxMap}
    (st : List Obj × List Diag) (r : Row)
    (hN : ∀ v, alookup r "notat_id" = some v → alookup nF v = alookup nF' v) :
    notatStep nF smap st r = notatStep nF' smap st r := by
  cases hnid : alookup r "notat_id" with
  | none =>
    have h1 : getField r "notat_id" = .error (.keyError "notat_id") :=
      (getField_error_iff _ _).mpr hnid
    simp only [notatStep]
    rw [h1]
    simp [exceptBind_error]
  | some nid =>
    have h1 : getField r "notat_id" = .ok nid := (getField_ok_iff _ _ _).mpr hnid
    simp only [notatStep]
    rw [h1]
    simp only [exceptBind_ok]
    rw [hN nid hnid]

theorem processNotater_cong {nF nF' : GrpIdx} {smap : IdxMap} :
    ∀ (rows : List Row) (st : List Obj × List Diag),
    (∀ r ∈ rows, ∀ v, alookup r "notat_id" = some v →
      alookup nF v = alookup nF' v) →
    processNotater nF smap rows st = processNotater nF' smap rows st
  | [], st, _ => rfl
  | r :: rs, st, hag => by
    simp only [processNotater]
    rw [notatStep_cong st r (hag r (List.mem_cons_self r rs))]
    cases hstep : notatStep nF' smap st r with
    | error e => simp [exceptBind_error]
    | ok st1 =>
      simp only [exceptBind_ok]
      exact processNotater_cong rs st1 (fun r' hr' => hag r' (List.mem_cons_of_mem _ hr'))

theorem cirius_eq (b1 b2 b3 b4 : Bool) (fr sr dr nr : List Row) :
    cirius b1 b2 b3 b4 fr sr dr nr =
      if !(b1 && b2 && b3 && b4) then .error .missingFiles
      else buildFileIdx fr ([], [], []) >>= fun idxs => ciriusTail idxs sr dr nr := by
  unfold cirius ciriusTail
  rfl

theorem ciriusTail_cong (idxs idxs' : GrpIdx × GrpIdx × GrpIdx)
    (sr dr nr : List Row)
    (hDa : ∀ r ∈ dr, alookup idxs.1 (some (dokIdN r))
      = alookup idxs'.1 (some (dokIdN r)))
    (hCa : ∀ r ∈ dr, alookup idxs.2.1 (some (cdwIdN r))
      = alookup idxs'.2.1 (some (cdwIdN r)))
    (hNa : ∀ r ∈ nr, ∀ v, alookup r "notat_id" = some v →
      alookup idxs.2.2 v = alookup idxs'.2.2 v) :
    ciriusTail idxs sr dr nr = ciriusTail idxs' sr dr nr := by
  unfold ciriusTail
  cases hsm : buildSager sr [] [] with
  | error e => simp [exceptBind_error]
  | ok sm =>
    simp only [exceptBind_ok]
    rw [processDok_cong dr ([], [], []) (fun r hr => ⟨hDa r hr, hCa r hr⟩)]
    cases hdst : processDokumentcdw idxs'.1 idxs'.2.1 dr ([], [], []) with
    | error e => simp [exceptBind_error]
    | ok dst =>
      simp only [exceptBind_ok]
      cases hsd : attachDokumenter sm.2 dst.1 (sm.1, []) with
      | error e => simp [exceptBind_error]
      | ok sd =>
        simp only [exceptBind_ok]
        rw [processNotater_cong nr (sd.1, []) hNa]

theorem bind_tail_cong (post sr dr nr : List Row)
    (accL accR : GrpIdx × GrpIdx × GrpIdx) (exD exC exN : Cell → Prop)
    (hrel0 : IdxsRel exD exC exN accL accR)
    (hDkeys : ∀ r ∈ dr, ¬ exD (some (dokIdN r)))
    (hCkeys : ∀ r ∈ dr, ¬ exC (some (cdwIdN r)))
    (hNkeys : ∀ r ∈ nr, ∀ v, alookup r "notat_id" = some v → ¬ exN v) :
    (buildFileIdx post accL >>= fun idxs => ciriusTail idxs sr dr nr)
      = (buildFileIdx post accR >>= fun idxs => ciriusTail idxs sr dr nr) := by
  have hrel := buildFileIdx_rel post accL accR hrel0
  cases hL : buildFileIdx post accL with
  | error e =>
    cases hR : buildFileIdx post accR with
    | error e' =>
      rw [hL, hR] at hrel
      simp only [ExceptRel] at hrel
      subst hrel
      rfl
    | ok b =>
      rw [hL, hR] at hrel
      simp [ExceptRel] at hrel
  | ok idxs =>
    cases hR : buildFileIdx post accR with
    | error e' =>
      rw [hL, hR] at hrel
      simp [ExceptRel] at hrel
    | ok idxs' =>
      rw [hL, hR] at hrel
      simp only [ExceptRel] at hrel
      simp only [exceptBind_ok]
      exact ciriusTail_cong idxs idxs' sr dr nr
        (fun r hr => hrel.1 _ (hDkeys r hr))
        (fun r hr => hrel.2.1 _ (hCkeys r hr))
        (fun r hr v hv => hrel.2.2 v (hNkeys r hr v hv))

/-- C9: a file row with a recognized owner kind whose owner id is never
referenced — by any document row's normalized `dokument_id` (kind
`dokument`), any document row's normalized `cdw_id` (kind `cdw`), or any
note row's raw `notat_id` (kind `notat`) — is completely inert: the whole
run with that row present returns exactly the same result (same output tree,
same diagnostics log, or the same error) as the run with the row deleted
from the file table.  In particular the row appears nowhere in the output
and contributes no diagnostic: unreferenced file rows are dropped silently,
unlike orphaned children, which are logged. -/
theorem unreferenced_file_row_inert (b1 b2 b3 b4 : Bool)
    (pre post sr dr nr : List Row) (f : Row) (kind : String) (tid : Cell)
    (hkind : alookup f "notes_template_name" = some (some kind))
    (hrec : kind ∈ recognizedKinds)
    (htid : alookup f "notes_template_id" = some tid)
    (hdok : kind = "dokument" → ∀ r ∈ dr, some (dokIdN r) ≠ tid)
    (hcdw : kind = "cdw" → ∀ r ∈ dr, some (cdwIdN r) ≠ tid)
    (hnot : kind = "notat" → ∀ r ∈ nr, ∀ v,
      alookup r "notat_id" = some v → v ≠ tid) :
    cirius b1 b2 b3 b4 (pre ++ f :: post) sr dr nr
      = cirius b1 b2 b3 b4 (pre ++ post) sr dr nr := by
  rw [cirius_eq, cirius_eq]
  cases hb : (b1 && b2 && b3 && b4) with
  | false => simp
  | true =>
    rw [if_neg (by decide : ¬((!true) = true)),
      if_neg (by decide : ¬((!true) = true))]
    rw [buildFileIdx_append_bind, buildFileIdx_append_bind]
    cases hpre : buildFileIdx pre ([], [], []) with
    | error e => simp [exceptBind_error]
    | ok a =>
      simp only [exceptBind_ok]
      simp only [buildFileIdx]
      have hgf1 : getField f "notes_template_name" = .ok (some kind) :=
        (getField_ok_iff _ _ _).mpr hkind
      have hgf2 : getField f "notes_template_id" = .ok tid :=
        (getField_ok_iff _ _ _).mpr htid
      have hmem : kind = "dokument" ∨ kind = "cdw" ∨ kind = "notat" := by
        simpa [recognizedKinds] using hrec
      rcases hmem with rfl | rfl | rfl
      · have hstepf : filStep a f = .ok (gadd a.1 tid (embedRow f), a.2.1, a.2.2) := by
          unfold filStep
          rw [hgf1]
          simp [hgf2, exceptBind_ok, exceptPure_eq_ok]
        rw [hstepf]
        simp only [exceptBind_ok]
        refine bind_tail_cong post sr dr nr _ a
          (· = tid) (fun _ => False) (fun _ => False)
          ⟨?_, fun k _ => rfl, fun k _ => rfl⟩
          (fun r hr => hdok rfl r hr) (fun r _ => not_false) (fun r _ v _ => not_false)
        intro k hk
        rw [alookup_gadd, if_neg hk]
      · have hstepf : filStep a f = .ok (a.1, gadd a.2.1 tid (embedRow f), a.2.2) := by
          unfold filStep
          rw [hgf1]
          simp [hgf2, exceptBind_ok, exceptPure_eq_ok]
        rw [hstepf]
        simp only [exceptBind_ok]
        refine bind_tail_cong post sr dr nr _ a
          (fun _ => False) (· = tid) (fun _ => False)
          ⟨fun k _ => rfl, ?_, fun k _ => rfl⟩
          (fun r _ => not_false) (fun r hr => hcdw rfl r hr) (fun r _ v _ => not_false)
        intro k hk
        rw [alookup_gadd, if_neg hk]
      · have hstepf : filStep a f = .ok (a.1, a.2.1, gadd a.2.2 tid (embedRow f)) := by
          unfold filStep
          rw [hgf1]
          simp [hgf2, exceptBind_ok, exceptPure_eq_ok]
        rw [hstepf]
        simp only [exceptBind_ok]
        refine bind_tail_cong post sr dr nr _ a
          (fun _ => False) (fun _ => False) (· = tid)
          ⟨fun k _ => rfl, fun k _ => rfl, ?_⟩
          (fun r _ => not_false) (fun r _ => not_false)
          (fun r hr v hv => hnot rfl r hr v hv)
        intro k hk
        rw [alookup_gadd, if_neg hk]

/-- Witness for C9: deleting the unreferenced file row from the file table
leaves the whole run's result unchanged. -/
theorem unreferenced_file_row_inert_witness :
    cirius true true true true ([] ++ c9Fil :: []) [c1Sag] [c1Dok "a1"] [c5Not]
      = cirius true true true true ([] ++ []) [c1Sag] [c1Dok "a1"] [c5Not] :=
  unreferenced_file_row_inert true true true true [] [] [c1Sag] [c1Dok "a1"]
    [c5Not] c9Fil "dokument" (some "zz") rfl (by decide) rfl
    (fun _ => by decide)
    (fun h => absurd h (by decide))
    (fun h => absurd h (by decide))

/-- Witness for C8 at the concrete C1 scenario run. -/
theorem case_objects_in_source_order_witness :
    ([c1Out] : List Obj).length = ([c1Sag] : List Row).length ∧
    ∀ (i : Nat) (r : Row) (o : Obj),
      ([c1Sag] : List Row)[i]? = some r → ([c1Out] : List Obj)[i]? = some o →
      o.take r.length = embedRow r :=
  case_objects_in_source_order true true true true []
    [c1Sag] [c1Dok "a1", c1Dok "a2"] [] [c1Out] [] rfl

/-- Witness for C10 at a concrete input: attaching to the second parent whose
child list already exists. -/
theorem append_to_obj_frame_witness :
    ∃ obj', append_to_obj w3Parents w3Map (some "m") "cs" w3Child
        = .ok (w3Parents.set 1 obj', []) ∧
      (∀ j, j ≠ 1 → (w3Parents.set 1 obj')[j]? = w3Parents[j]?) ∧
      (w3Parents.set 1 obj').length = w3Parents.length ∧
      (∀ g, g ≠ "cs" → alookup obj' g = alookup [(("cs" : String), Val.arr [[("q", Val.s none)]])] g) ∧
      (∃ l', alookup obj' "cs" = some (Val.arr l')) :=
  append_to_obj_frame w3Parents w3Map (some "m") "cs" w3Child 1 _ rfl rfl
    (.inr ⟨[[("q", Val.s none)]], rfl⟩)
